import Mathlib

/-!
Shallow embedding of the time-entry tooling of the `productive-mcp` server
(`src/tools/time-entries.ts` and the gateway call shapes of `src/api/client.ts`).

Strings are modelled by Lean `String` / `List Char`; JavaScript's
`toLowerCase().trim()` is modelled by ASCII lowering and whitespace trimming.
The duration arithmetic appears twice: the structural parser model evaluates
`parseFloat`/`Math.round` over exact rationals (`mantissa / 10^fracDigits`,
round-half-up), which is the arithmetic the spec mandates, while a separate
correctly-rounded IEEE binary64 model (`fpDurationValue`, `fpRoundInt`)
reproduces what the source actually computes in doubles — the two disagree,
which is the arithmetic code bug exhibited for the duration contract.
Network effects are modelled by an explicit trace of gateway calls returned
alongside the result; the gateway's answers are inputs to the tool
functions.  The hidden global clock read by `parseDate` (`new Date()`) is
modelled as an explicit `SimpleDate` input.
-/

deriving instance DecidableEq for Except

namespace ProductiveMcp

/-- JS `toLowerCase()` restricted to ASCII, per character (`Char.toLower`). -/
def jsLower (cs : List Char) : List Char := cs.map Char.toLower

/-- JS `trim()`: drop whitespace from both ends. -/
def jsTrim (cs : List Char) : List Char :=
  ((cs.dropWhile Char.isWhitespace).reverse.dropWhile Char.isWhitespace).reverse

/-- Model of `input.toLowerCase().trim()` as performed at the top of the parsers. -/
def normalizeInput (s : String) : List Char := jsTrim (jsLower s.data)

/-- Value of a digit string (the regex capture groups are all-digit). -/
def digitsToNat (ds : List Char) : Nat :=
  ds.foldl (fun n c => n * 10 + (c.toNat - 48)) 0

/-- Round-half-up of the non-negative rational `num / den` (JS `Math.round`
on non-negative values, which coincides with round-half-away-from-zero). -/
def roundHalfUp (num den : Nat) : Nat := (2 * num + den) / (2 * den)

/-- Value of `Math.round(parseFloat(numStr) * 60)` where `numStr` denotes
`mant / 10^frac`, computed over the exact rational — the rounding the spec
mandates.  The source evaluates this in IEEE binary64, which differs at
inputs such as `1.025` (the faithful double evaluation is `fpDurationValue`
below; the divergence is exhibited in the duration-contract theorems). -/
def hoursToMinutes (mant frac : Nat) : Nat := roundHalfUp (mant * 60) (10 ^ frac)

/-- Greedy parse of the regex fragment `\d*\.?\d+` at the front of `cs`:
returns (all digits as a Nat, number of fraction digits, rest), or `none`
when the fragment does not match. -/
def parseNumberCore (cs : List Char) : Option (Nat × Nat × List Char) :=
  let d1 := cs.takeWhile Char.isDigit
  let r1 := cs.dropWhile Char.isDigit
  match r1 with
  | '.' :: r2 =>
    let d2 := r2.takeWhile Char.isDigit
    let r3 := r2.dropWhile Char.isDigit
    if d2 = [] then none
    else some (digitsToNat (d1 ++ d2), d2.length, r3)
  | _ => if d1 = [] then none else some (digitsToNat d1, 0, r1)

/-- The unit alternatives of `h(?:ours?)?`. -/
def hourUnits : List (List Char) := [['h'], ['h','o','u','r'], ['h','o','u','r','s']]

/-- The unit alternatives of `m(?:inutes?)?`. -/
def minuteUnits : List (List Char) :=
  [['m'], ['m','i','n','u','t','e'], ['m','i','n','u','t','e','s']]

/-- Matcher for `^(\d*\.?\d+)\s*h(?:ours?)?$` with the captured number turned into
minutes via `Math.round(parseFloat(_) * 60)`. -/
def parseHourForm (cs : List Char) : Option Nat :=
  match parseNumberCore cs with
  | some (mant, frac, rest) =>
    let r := rest.dropWhile Char.isWhitespace
    if hourUnits.any (fun u => r = u) then some (hoursToMinutes mant frac) else none
  | none => none

/-- Matcher for `^(\d+)\s*m(?:inutes?)?$` with `parseInt` on the captured digits. -/
def parseMinuteForm (cs : List Char) : Option Nat :=
  let d1 := cs.takeWhile Char.isDigit
  let r1 := cs.dropWhile Char.isDigit
  if d1 = [] then none
  else
    let r := r1.dropWhile Char.isWhitespace
    if minuteUnits.any (fun u => r = u) then some (digitsToNat d1) else none

/-- Matcher for `^(\d*\.?\d+)$` (bare number, interpreted as hours). -/
def parseDecimalForm (cs : List Char) : Option Nat :=
  match parseNumberCore cs with
  | some (mant, frac, rest) => if rest = [] then some (hoursToMinutes mant frac) else none
  | none => none

/-- The three regex attempts of `parseTimeToMinutes`, in source order,
first match wins. -/
def parseTimeCore (cs : List Char) : Option Nat :=
  match parseHourForm cs with
  | some n => some n
  | none =>
    match parseMinuteForm cs with
    | some n => some n
    | none => parseDecimalForm cs

/-- Model of `parseTimeToMinutes` of `src/tools/time-entries.ts` (lines 7–29); a
thrown `Error` is modelled as `Except.error` carrying the message. -/
def parseTimeToMinutes (timeInput : String) : Except String Nat :=
  match parseTimeCore (normalizeInput timeInput) with
  | some n => .ok n
  | none =>
    .error ("Invalid time format: " ++ timeInput ++
      ". Use formats like \"2h\", \"120m\", or \"2.5\"")

/-! ## Dates -/

/-- A Gregorian calendar date, modelling the date components of a JS `Date`. -/
structure SimpleDate where
  year : Nat
  month : Nat
  day : Nat
deriving DecidableEq, Repr

def isLeapYear (y : Nat) : Bool :=
  y % 4 = 0 && (y % 100 ≠ 0 || y % 400 = 0)

def daysInMonth (y m : Nat) : Nat :=
  if m = 2 then (if isLeapYear y then 29 else 28)
  else if m = 4 ∨ m = 6 ∨ m = 9 ∨ m = 11 then 30
  else 31

/-- Effect of `d.setDate(d.getDate() - 1)`: the previous calendar day. -/
def prevDay (d : SimpleDate) : SimpleDate :=
  if d.day > 1 then ⟨d.year, d.month, d.day - 1⟩
  else if d.month > 1 then ⟨d.year, d.month - 1, daysInMonth d.year (d.month - 1)⟩
  else ⟨d.year - 1, 12, 31⟩

/-- Zero-pad a numeral to width 2. -/
def pad2 (n : Nat) : String :=
  if n < 10 then "0" ++ toString n else toString n

/-- Zero-pad a numeral to width 4. -/
def pad4 (n : Nat) : String :=
  String.mk (List.replicate (4 - (toString n).length) '0') ++ toString n

/-- Rendering `date.toISOString().split('T')[0]`: the `YYYY-MM-DD` rendering. -/
def formatISO (d : SimpleDate) : String :=
  pad4 d.year ++ "-" ++ pad2 d.month ++ "-" ++ pad2 d.day

/-- The regex `^(\d{4})-(\d{2})-(\d{2})$` with `parseInt` on the captures. -/
def dateMatchCore (cs : List Char) : Option (Nat × Nat × Nat) :=
  match cs with
  | [y1, y2, y3, y4, '-', m1, m2, '-', d1, d2] =>
    if ([y1, y2, y3, y4, m1, m2, d1, d2]).all Char.isDigit then
      some (digitsToNat [y1, y2, y3, y4], digitsToNat [m1, m2], digitsToNat [d1, d2])
    else none
  | _ => none

/-- Model of `parseDate` of `src/tools/time-entries.ts` (lines 32–62).  The source
reads `new Date()` internally; that hidden clock value is the explicit
`today` input here. -/
def parseDate (dateInput : String) (today : SimpleDate) : Except String String :=
  let input := normalizeInput dateInput
  if input = ['t','o','d','a','y'] then .ok (formatISO today)
  else if input = ['y','e','s','t','e','r','d','a','y'] then .ok (formatISO (prevDay today))
  else
    match dateMatchCore input with
    | some (_, month, day) =>
      if month < 1 ∨ month > 12 ∨ day < 1 ∨ day > 31 then
        .error ("Invalid date: " ++ dateInput)
      else .ok (String.mk input)
    | none =>
      .error ("Invalid date format: " ++ dateInput ++
        ". Use \"today\", \"yesterday\", or YYYY-MM-DD format")

/-! ## MCP error envelope and the shared catch block -/

inductive ErrCode where
  | invalidParams
  | internalError
deriving DecidableEq, Repr

/-- JSON-RPC error code numerals used by the SDK's `McpError`. -/
def ErrCode.num : ErrCode → String
  | .invalidParams => "-32602"
  | .internalError => "-32603"

structure McpErr where
  code : ErrCode
  message : String
deriving DecidableEq, Repr

/-- A failure raised inside a tool body: either a Zod parse failure carrying
the issue messages, or a thrown `McpError`. -/
inductive BodyErr where
  | zod (msgs : List String)
  | mcp (code : ErrCode) (message : String)
deriving DecidableEq, Repr

/-- JS `Array.join(sep)`. -/
def joinSep (sep : String) : List String → String
  | [] => ""
  | [x] => x
  | x :: y :: xs => x ++ sep ++ joinSep sep (y :: xs)

/-- The catch block shared by every tool (e.g. lines 183–195, 372–384):
a `ZodError` becomes `InvalidParams` with the joined issue messages; any
other thrown error — the `McpError`s thrown inside the body included — is
re-wrapped as `InternalError` carrying the thrown error's `message` (the
SDK sets an `McpError`'s message to `MCP error <code>: <text>`). -/
def wrapCatch : BodyErr → McpErr
  | .zod msgs => ⟨.invalidParams, "Invalid parameters: " ++ joinSep ", " msgs⟩
  | .mcp c m => ⟨.internalError, "MCP error " ++ c.num ++ ": " ++ m⟩

/-- JS truthiness of an optional string: `undefined` and `""` are falsy. -/
def truthyStr : Option String → Bool
  | none => false
  | some s => s ≠ ""

/-- Value of `x || d` for an optional string `x`. -/
def jsOr (o : Option String) (d : String) : String :=
  match o with
  | some s => if s = "" then d else s
  | none => d

/-! ## Gateway calls (the client methods of `src/api/client.ts` as invoked
by the tools, with the argument shapes the tools pass) -/

/-- Arguments the tool passes to `client.listTimeEntries` (lines 116–125). -/
structure TimeEntriesQuery where
  date : Option String
  after : Option String
  before : Option String
  person_id : Option String
  project_id : Option String
  task_id : Option String
  service_id : Option String
  limit : Option Nat
deriving DecidableEq, Repr

/-- The `attributes` of a `ProductiveTimeEntryCreate` payload (lines 288–296). -/
structure TimeEntryCreateAttributes where
  date : String
  time : Nat
  billable_time : Option Nat
  note : Option String
deriving DecidableEq, Repr

/-- The `relationships` of the payload: person/service ids always, task id when
provided (lines 297–322).  The constant `type` tags are implicit. -/
structure TimeEntryCreateRelationships where
  person : String
  service : String
  task : Option String
deriving DecidableEq, Repr

/-- The `ProductiveTimeEntryCreate` body handed to `client.createTimeEntry`. -/
structure ProductiveTimeEntryCreate where
  attributes : TimeEntryCreateAttributes
  relationships : TimeEntryCreateRelationships
deriving DecidableEq, Repr

/-- One network call made through the API client. -/
inductive GatewayCall where
  | listTimeEntriesC (q : TimeEntriesQuery)
  | createTimeEntryC (payload : ProductiveTimeEntryCreate)
  | listProjectsC (limit : Option Nat)
  | listServicesC (company_id : Option String) (limit : Option Nat)
  | listProjectDealsC (project_id : String) (budget_type : Option Nat) (limit : Option Nat)
  | listDealServicesC (deal_id : String) (limit : Option Nat)
deriving DecidableEq, Repr

/-- Only `createTimeEntry` issues a POST; every other call is a read. -/
def GatewayCall.isMutation : GatewayCall → Bool
  | .createTimeEntryC _ => true
  | _ => false

/-- Number of mutation attempts in a call trace. -/
def mutationCount (calls : List GatewayCall) : Nat :=
  (calls.filter GatewayCall.isMutation).length

/-- Outcome of one tool invocation: the trace of gateway calls it performed
and the response text (or the `McpError` it threw). -/
structure ToolRun where
  calls : List GatewayCall
  result : Except McpErr String
deriving DecidableEq, Repr

/-! ## Gateway responses (shapes read by the tools) -/

/-- A time-entry record as read by `listTimeEntresTool` (lines 136–168):
`attributes.date/time/billable_time/note` and the relationship ids. -/
structure TimeEntryRecord where
  id : String
  date : String
  time : Nat
  billable_time : Option Nat
  note : Option String
  person : Option String
  service : Option String
  task : Option String
  project : Option String
deriving DecidableEq, Repr

/-- A paginated list response: `data` plus `meta?.total_count`. -/
structure ListResponse (α : Type) where
  data : List α
  total_count : Option Nat
deriving DecidableEq, Repr

/-- The `attributes` of the created time entry returned by the gateway. -/
structure TimeEntryCreatedAttributes where
  date : String
  time : Nat
  billable_time : Option Nat
  note : Option String
  created_at : Option String
deriving DecidableEq, Repr

/-- The `response.data` of `client.createTimeEntry` (lines 324–364). -/
structure CreatedTimeEntryResponse where
  id : String
  attributes : TimeEntryCreatedAttributes
deriving DecidableEq, Repr

/-- A deal/budget record as read by `listProjectDealsTool` (lines 640–647). -/
structure DealRecord where
  id : String
  name : String
  budget_type : Option Nat
  value : Option Nat
deriving DecidableEq, Repr

/-- A service record as read by the service-listing tools. -/
structure ServiceRecord where
  id : String
  name : String
  description : Option String
  company : Option String
deriving DecidableEq, Repr

/-! ## Zod schemas -/

/-- Issues produced by `z.number().min(1).max(200)` on an optional limit. -/
def zodLimitIssues (limit : Option Nat) : List String :=
  match limit with
  | none => []
  | some n =>
    (if n < 1 then ["Number must be greater than or equal to 1"] else []) ++
    (if n > 200 then ["Number must be less than or equal to 200"] else [])

/-- Issue list for a required `z.string().min(k, msg)` field: an absent value
yields Zod's `"Required"`, a present value shorter than `k` the custom
message. -/
def zodRequiredString (v : Option String) (k : Nat) (msg : String) : List String :=
  match v with
  | none => ["Required"]
  | some s => if s.length < k then [msg] else []

/-- Raw arguments of `list_time_entries` (fields of `listTimeEntriesSchema`,
lines 64–73); every field optional. -/
structure ListTimeEntriesArgs where
  date : Option String
  after : Option String
  before : Option String
  person_id : Option String
  project_id : Option String
  task_id : Option String
  service_id : Option String
  limit : Option Nat
deriving DecidableEq, Repr

/-- Model of `listTimeEntriesSchema.parse`: every string field passes through; only
the `limit` bounds can fail. -/
def listTimeEntriesSchemaParse (a : ListTimeEntriesArgs) :
    Except (List String) ListTimeEntriesArgs :=
  match zodLimitIssues a.limit with
  | [] => .ok a
  | msgs => .error msgs

/-- Raw arguments of `create_time_entry` (fields of `createTimeEntrySchema`,
lines 75–84). -/
structure CreateTimeEntryArgs where
  date : Option String
  time : Option String
  person_id : Option String
  service_id : Option String
  task_id : Option String
  note : Option String
  billable_time : Option String
  confirm : Option Bool
deriving DecidableEq, Repr

/-- Parsed `create_time_entry` arguments (`confirm` defaulted to `false`). -/
structure CreateTimeEntryParams where
  date : String
  time : String
  person_id : String
  service_id : String
  task_id : Option String
  note : String
  billable_time : Option String
  confirm : Bool
deriving DecidableEq, Repr

/-- All issues of `createTimeEntrySchema`, in shape-key order: `date`,
`time`, `person_id`, `service_id` require length ≥ 1, `note` length ≥ 10;
`task_id`, `billable_time` and `confirm` cannot fail in the typed model. -/
def createTimeEntryIssues (a : CreateTimeEntryArgs) : List String :=
  zodRequiredString a.date 1 "Date is required" ++
  zodRequiredString a.time 1 "Time is required" ++
  zodRequiredString a.person_id 1 "Person ID is required" ++
  zodRequiredString a.service_id 1 "Service ID is required" ++
  zodRequiredString a.note 10 "Work description must be at least 10 characters"

/-- Model of `createTimeEntrySchema.parse` (issues are accumulated, Zod-style). -/
def createTimeEntrySchemaParse (a : CreateTimeEntryArgs) :
    Except (List String) CreateTimeEntryParams :=
  match a.date, a.time, a.person_id, a.service_id, a.note with
  | some d, some t, some p, some s, some n =>
    match createTimeEntryIssues a with
    | [] => .ok ⟨d, t, p, s, a.task_id, n, a.billable_time, a.confirm.getD false⟩
    | msgs => .error msgs
  | _, _, _, _, _ => .error (createTimeEntryIssues a)

/-- Raw arguments of `list_project_deals` (`listProjectDealsSchema`,
lines 611–615). -/
structure ListProjectDealsArgs where
  project_id : Option String
  budget_type : Option Nat
  limit : Option Nat
deriving DecidableEq, Repr

structure ListProjectDealsParams where
  project_id : String
  budget_type : Option Nat
  limit : Option Nat
deriving DecidableEq, Repr

/-- Issues of `z.number().int().min(1).max(2)` on the optional budget type. -/
def zodBudgetTypeIssues (v : Option Nat) : List String :=
  match v with
  | none => []
  | some n =>
    (if n < 1 then ["Number must be greater than or equal to 1"] else []) ++
    (if n > 2 then ["Number must be less than or equal to 2"] else [])

def listProjectDealsSchemaParse (a : ListProjectDealsArgs) :
    Except (List String) ListProjectDealsParams :=
  match a.project_id with
  | some p =>
    match zodRequiredString (some p) 1 "Project ID is required" ++
          zodBudgetTypeIssues a.budget_type ++ zodLimitIssues a.limit with
    | [] => .ok ⟨p, a.budget_type, a.limit⟩
    | msgs => .error msgs
  | none =>
    .error (zodRequiredString none 1 "Project ID is required" ++
      zodBudgetTypeIssues a.budget_type ++ zodLimitIssues a.limit)

/-- Raw arguments of `list_deal_services` (`listDealServicesSchema`,
lines 676–679). -/
structure ListDealServicesArgs where
  deal_id : Option String
  limit : Option Nat
deriving DecidableEq, Repr

structure ListDealServicesParams where
  deal_id : String
  limit : Option Nat
deriving DecidableEq, Repr

def listDealServicesSchemaParse (a : ListDealServicesArgs) :
    Except (List String) ListDealServicesParams :=
  match a.deal_id with
  | some d =>
    match zodRequiredString (some d) 1 "Deal/Budget ID is required" ++
          zodLimitIssues a.limit with
    | [] => .ok ⟨d, a.limit⟩
    | msgs => .error msgs
  | none => .error (zodRequiredString none 1 "Deal/Budget ID is required" ++
      zodLimitIssues a.limit)

/-- Raw arguments of `get_project_services` (`getProjectServicesSchema`,
lines 91–94). -/
structure GetProjectServicesArgs where
  project_id : Option String
  limit : Option Nat
deriving DecidableEq, Repr

structure GetProjectServicesParams where
  project_id : String
  limit : Option Nat
deriving DecidableEq, Repr

def getProjectServicesSchemaParse (a : GetProjectServicesArgs) :
    Except (List String) GetProjectServicesParams :=
  match a.project_id with
  | some p =>
    match zodRequiredString (some p) 1 "Project ID is required" ++
          zodLimitIssues a.limit with
    | [] => .ok ⟨p, a.limit⟩
    | msgs => .error msgs
  | none => .error (zodRequiredString none 1 "Project ID is required" ++
      zodLimitIssues a.limit)

/-! ## Rendering helpers -/

/-- The `${hours}h ${minutes}m` rendering used throughout the tools
(e.g. lines 142–146): the hours part only when positive, the minutes part
only when positive, and `0m` when both would be empty. -/
def timeDisplay (m : Nat) : String :=
  let hours := m / 60
  let minutes := m % 60
  if hours > 0 then
    (if minutes > 0 then toString hours ++ "h " ++ toString minutes ++ "m"
     else toString hours ++ "h")
  else toString minutes ++ "m"

/-- One `• Time Entry …` block of the `list_time_entries` output
(lines 136–166). -/
def entryLine (e : TimeEntryRecord) : String :=
  let billableDisplay :=
    match e.billable_time with
    | some b => if b ≠ e.time then " (Billable: " ++ timeDisplay b ++ ")" else ""
    | none => ""
  "• Time Entry (ID: " ++ e.id ++ ")\n  Date: " ++ e.date ++
  "\n  " ++ ("Time: " ++ timeDisplay e.time) ++ billableDisplay ++
  "\n  Note: " ++ jsOr e.note "No note" ++
  "\n  Person ID: " ++ jsOr e.person "Unknown" ++
  "\n  Service ID: " ++ jsOr e.service "Unknown" ++
  "\n  Task ID: " ++ jsOr e.task "None" ++
  "\n  Project ID: " ++ jsOr e.project "None"

/-- Total of `reduce((sum, entry) => sum + entry.attributes.time, 0)` (line 168). -/
def pageTotalMinutes (entries : List TimeEntryRecord) : Nat :=
  entries.foldl (fun sum e => sum + e.time) 0

/-- The summary text of `list_time_entries` for a non-empty page
(lines 168–175). -/
def listSummary (resp : ListResponse TimeEntryRecord) : String :=
  let entriesText := joinSep "\n\n" (resp.data.map entryLine)
  let totalDisplay := timeDisplay (pageTotalMinutes resp.data)
  "Found " ++ toString resp.data.length ++ " time entr" ++
  (if resp.data.length ≠ 1 then "ies" else "y") ++
  (match resp.total_count with
   | some t => if t ≠ 0 then
       " (showing " ++ toString resp.data.length ++ " of " ++ toString t ++ ")"
     else ""
   | none => "") ++
  ":\n\n" ++ ("Total Time: " ++ totalDisplay) ++ "\n\n" ++ entriesText

/-! ## Actor resolution and the create-entry pipeline -/

/-- The inline `"me"` resolution appearing verbatim in `listTimeEntresTool`
(lines 105–114) and `createTimeEntryTool` (lines 207–216): a token other
than `"me"` passes through untouched; `"me"` requires a truthy configured
`PRODUCTIVE_USER_ID`. -/
def resolvePersonId (personId : String) (userId : Option String) :
    Except McpErr String :=
  if personId = "me" then
    if truthyStr userId then .ok (userId.getD "")
    else .error ⟨.invalidParams,
      "Cannot use \"me\" reference - PRODUCTIVE_USER_ID is not configured in environment"⟩
  else .ok personId

/-- In `list_time_entries` the person filter is optional; an absent filter
skips resolution (the `personId === 'me'` test is false for `undefined`). -/
def resolveOptPerson (personId : Option String) (userId : Option String) :
    Except McpErr (Option String) :=
  match personId with
  | some p => (resolvePersonId p userId).map some
  | none => .ok none

/-- Lines 240–251: `billable_time` is parsed only when truthy; a parse
failure is rethrown with the `Invalid billable time format: ` prefix. -/
def parseBillableField (billable : Option String) : Except McpErr (Option Nat) :=
  match billable with
  | some s =>
    if s ≠ "" then
      match parseTimeToMinutes s with
      | .ok n => .ok (some n)
      | .error m => .error ⟨.invalidParams, "Invalid billable time format: " ++ m⟩
    else .ok none
  | none => .ok none

/-- The confirmation preview (lines 254–286). -/
def previewText (parsedDate : String) (timeInMinutes : Nat) (billable : Option Nat)
    (personId rawPersonId serviceId : String) (taskId : Option String)
    (note : String) : String :=
  let billableDisplay :=
    match billable with
    | some b => "\nBillable Time: " ++ timeDisplay b
    | none => ""
  "Time Entry Ready to Create:\n\nDate: " ++ parsedDate ++
  "\nTime: " ++ timeDisplay timeInMinutes ++ billableDisplay ++
  "\nPerson ID: " ++ personId ++ (if rawPersonId = "me" then " (me)" else "") ++
  "\nService ID: " ++ serviceId ++ "\n" ++
  (if truthyStr taskId then "Task ID: " ++ taskId.getD "" else "No task specified") ++
  "\n" ++ (if note ≠ "" then "Note: " ++ note else "No note") ++
  "\n\nTo create this time entry, call this tool again with the same parameters and add \"confirm\": true"

/-- The `ProductiveTimeEntryCreate` body (lines 288–322): `note` only when
truthy, the task relationship only when `task_id` is truthy. -/
def buildPayload (parsedDate : String) (timeInMinutes : Nat) (billable : Option Nat)
    (note personId serviceId : String) (taskId : Option String) :
    ProductiveTimeEntryCreate :=
  { attributes := { date := parsedDate, time := timeInMinutes,
                    billable_time := billable,
                    note := if note ≠ "" then some note else none },
    relationships := { person := personId, service := serviceId,
                       task := if truthyStr taskId then some (taskId.getD "") else none } }

/-- The success text built from the gateway's response (lines 326–364). -/
def createdText (resp : CreatedTimeEntryResponse) (personId rawPersonId : String)
    (userId : Option String) (serviceId : String) (taskId : Option String) : String :=
  let billableDisplay :=
    match resp.attributes.billable_time with
    | some b => if b ≠ resp.attributes.time then "\nBillable Time: " ++ timeDisplay b
                else ""
    | none => ""
  "Time entry created successfully!\nDate: " ++ resp.attributes.date ++
  "\nTime: " ++ timeDisplay resp.attributes.time ++ billableDisplay ++
  "\nID: " ++ resp.id ++
  (if truthyStr resp.attributes.note then "\nNote: " ++ resp.attributes.note.getD ""
   else "") ++
  "\nPerson ID: " ++ personId ++
  (if rawPersonId = "me" ∧ truthyStr userId then " (me)" else "") ++
  "\nService ID: " ++ serviceId ++
  (if truthyStr taskId then "\nTask ID: " ++ taskId.getD "" else "") ++
  (match resp.attributes.created_at with
   | some c => if c ≠ "" then "\nCreated at: " ++ c else ""
   | none => "")

/-! ## The tools -/

/-- Model of `listTimeEntresTool` (lines 96–196).  `resp` is the gateway's answer to
the single `listTimeEntries` call. -/
def listTimeEntresTool (args : ListTimeEntriesArgs) (userId : Option String)
    (resp : ListResponse TimeEntryRecord) : ToolRun :=
  match listTimeEntriesSchemaParse args with
  | .error msgs => ⟨[], .error (wrapCatch (.zod msgs))⟩
  | .ok params =>
    match resolveOptPerson params.person_id userId with
    | .error e => ⟨[], .error (wrapCatch (.mcp e.code e.message))⟩
    | .ok personId =>
      let q : TimeEntriesQuery :=
        ⟨params.date, params.after, params.before, personId,
         params.project_id, params.task_id, params.service_id, params.limit⟩
      if resp.data = [] then
        ⟨[.listTimeEntriesC q], .ok "No time entries found matching the criteria."⟩
      else
        ⟨[.listTimeEntriesC q], .ok (listSummary resp)⟩

/-- Model of `createTimeEntryTool` (lines 198–385).  `today` models the hidden
`new Date()` read inside `parseDate`; `resp` is the gateway's answer to the
create call (only consulted on the confirmed path). -/
def createTimeEntryTool (args : CreateTimeEntryArgs) (userId : Option String)
    (today : SimpleDate) (resp : CreatedTimeEntryResponse) : ToolRun :=
  match createTimeEntrySchemaParse args with
  | .error msgs => ⟨[], .error (wrapCatch (.zod msgs))⟩
  | .ok params =>
    match resolvePersonId params.person_id userId with
    | .error e => ⟨[], .error (wrapCatch (.mcp e.code e.message))⟩
    | .ok personId =>
      match parseDate params.date today with
      | .error m => ⟨[], .error (wrapCatch (.mcp .invalidParams m))⟩
      | .ok parsedDate =>
        match parseTimeToMinutes params.time with
        | .error m => ⟨[], .error (wrapCatch (.mcp .invalidParams m))⟩
        | .ok timeInMinutes =>
          match parseBillableField params.billable_time with
          | .error e => ⟨[], .error (wrapCatch (.mcp e.code e.message))⟩
          | .ok billableTimeInMinutes =>
            if params.confirm = false then
              ⟨[], .ok (previewText parsedDate timeInMinutes billableTimeInMinutes
                personId params.person_id params.service_id params.task_id
                params.note)⟩
            else
              ⟨[.createTimeEntryC (buildPayload parsedDate timeInMinutes
                  billableTimeInMinutes params.note personId params.service_id
                  params.task_id)],
               .ok (createdText resp personId params.person_id userId
                 params.service_id params.task_id)⟩

/-- One `• Deal/Budget` block of `list_project_deals` (lines 640–647). -/
def dealLine (deal : DealRecord) : String :=
  let budgetType :=
    if deal.budget_type = some 1 then "Deal"
    else if deal.budget_type = some 2 then "Budget"
    else "Unknown"
  let value :=
    match deal.value with
    | some v => if v ≠ 0 then " (Value: " ++ toString v ++ ")" else ""
    | none => ""
  "• " ++ budgetType ++ " (ID: " ++ deal.id ++ ")\n  Name: " ++ deal.name ++ value

/-- Model of `listProjectDealsTool` (lines 618–673). -/
def listProjectDealsTool (args : ListProjectDealsArgs)
    (resp : ListResponse DealRecord) : ToolRun :=
  match listProjectDealsSchemaParse args with
  | .error msgs => ⟨[], .error (wrapCatch (.zod msgs))⟩
  | .ok params =>
    let calls := [GatewayCall.listProjectDealsC params.project_id
      params.budget_type params.limit]
    if resp.data = [] then
      ⟨calls, .ok "No deals/budgets found for this project."⟩
    else
      let dealsText := joinSep "\n\n" (resp.data.map dealLine)
      let typeFilter :=
        if params.budget_type = some 1 then " deals"
        else if params.budget_type = some 2 then " budgets"
        else " deals/budgets"
      ⟨calls, .ok ("Found " ++ toString resp.data.length ++ typeFilter ++
        " for project " ++ params.project_id ++ ":\n\n" ++ dealsText)⟩

/-- One `• Service` block of `list_deal_services` (lines 703–707). -/
def dealServiceLine (s : ServiceRecord) : String :=
  "• Service (ID: " ++ s.id ++ ")\n  Name: " ++
  (if s.name = "" then "Unnamed Service" else s.name) ++ "\n  " ++
  (match s.description with
   | some d => if d ≠ "" then "Description: " ++ d else "No description"
   | none => "No description")

/-- Model of `listDealServicesTool` (lines 682–730). -/
def listDealServicesTool (args : ListDealServicesArgs)
    (resp : ListResponse ServiceRecord) : ToolRun :=
  match listDealServicesSchemaParse args with
  | .error msgs => ⟨[], .error (wrapCatch (.zod msgs))⟩
  | .ok params =>
    let calls := [GatewayCall.listDealServicesC params.deal_id params.limit]
    if resp.data = [] then
      ⟨calls, .ok "No services found for this deal/budget."⟩
    else
      let servicesText := joinSep "\n\n" (resp.data.map dealServiceLine)
      ⟨calls, .ok ("Found " ++ toString resp.data.length ++ " service" ++
        (if resp.data.length ≠ 1 then "s" else "") ++ " for deal/budget " ++
        params.deal_id ++ ":\n\n" ++ servicesText)⟩

/-- One `• <name>` block of `get_project_services` (lines 466–472); a
function of the service record alone. -/
def projectServiceLine (s : ServiceRecord) : String :=
  "• " ++ s.name ++ " (ID: " ++ s.id ++ ")\n  " ++
  (match s.company with
   | some c => if c ≠ "" then "Company ID: " ++ c else ""
   | none => "") ++ "\n  " ++
  (match s.description with
   | some d => if d ≠ "" then "Description: " ++ d else "No description"
   | none => "No description")

/-- The listed-services block of `get_project_services`: depends only on
the gateway response, never on `project_id`. -/
def projectServicesText (resp : ListResponse ServiceRecord) : String :=
  joinSep "\n\n" (resp.data.map projectServiceLine)

/-- Model of `getProjectServicesTool` (lines 438–495): fetches one page of projects
(`limit: 1`) and then the services with only the `limit` argument — no
project or company filter — and mentions `project_id` only in the wording. -/
def getProjectServicesTool (args : GetProjectServicesArgs)
    (resp : ListResponse ServiceRecord) : ToolRun :=
  match getProjectServicesSchemaParse args with
  | .error msgs => ⟨[], .error (wrapCatch (.zod msgs))⟩
  | .ok params =>
    let calls := [GatewayCall.listProjectsC (some 1),
      GatewayCall.listServicesC none params.limit]
    if resp.data = [] then
      ⟨calls, .ok ("No active services found for project " ++
        params.project_id ++ ".")⟩
    else
      ⟨calls, .ok ("Services available for project " ++ params.project_id ++
        " (" ++ toString resp.data.length ++ " service" ++
        (if resp.data.length ≠ 1 then "s" else "") ++ "):\n\n" ++
        projectServicesText resp)⟩

/-- Substring containment on strings, via infixes of the char lists. -/
def containsStr (s sub : String) : Prop := sub.data <:+: s.data

instance (s sub : String) : Decidable (containsStr s sub) := by
  unfold containsStr; infer_instance

/-! ## Specification-side characterizations, following the spec's wording
(used to state the parser contracts, to be compared with the source-derived
functions above) -/

/-- A numeral of the shape `\d*\.?\d+` (spec §4.1: "Number may include a
decimal point") with its exact value `mant / 10^frac`. -/
def NumeralShape (cs : List Char) (mant frac : Nat) : Prop :=
  (frac = 0 ∧ cs ≠ [] ∧ (∀ c ∈ cs, c.isDigit = true) ∧ mant = digitsToNat cs) ∨
  (∃ d1 d2, cs = d1 ++ '.' :: d2 ∧ d2 ≠ [] ∧ (∀ c ∈ d1, c.isDigit = true) ∧
    (∀ c ∈ d2, c.isDigit = true) ∧ mant = digitsToNat (d1 ++ d2) ∧ frac = d2.length)

/-- Spec §4.1: the three recognized duration forms over an already
lower-cased and trimmed input, with the minute value each yields:
`<number><ws><h|hour|hours>` ↦ round(number·60); `<integer><ws><m|minute|minutes>`
↦ the integer; bare `<number>` ↦ round(number·60). -/
def DurationFormSpec (cs : List Char) (m : Nat) : Prop :=
  (∃ num w u mant frac, cs = num ++ w ++ u ∧ NumeralShape num mant frac ∧
    (∀ c ∈ w, c.isWhitespace = true) ∧ u ∈ hourUnits ∧ m = hoursToMinutes mant frac) ∨
  (∃ ds w u, cs = ds ++ w ++ u ∧ ds ≠ [] ∧ (∀ c ∈ ds, c.isDigit = true) ∧
    (∀ c ∈ w, c.isWhitespace = true) ∧ u ∈ minuteUnits ∧ m = digitsToNat ds) ∨
  (∃ mant frac, NumeralShape cs mant frac ∧ m = hoursToMinutes mant frac)

/-- Spec §4.2: a ten-character `YYYY-MM-DD` shape together with the numeric
values of its fields. -/
def DateShape (cs : List Char) (y mo d : Nat) : Prop :=
  ∃ a b c e f g h i, cs = [a, b, c, e, '-', f, g, '-', h, i] ∧
    (∀ x ∈ [a, b, c, e, f, g, h, i], x.isDigit = true) ∧
    y = digitsToNat [a, b, c, e] ∧ mo = digitsToNat [f, g] ∧ d = digitsToNat [h, i]

/-! ## Correctly rounded IEEE binary64 evaluation

The source computes `Math.round(parseFloat(x) * 60)` and `parseInt(x)` in
IEEE binary64 arithmetic.  The following models correctly rounded binary64
results for positive rationals in the binary64 normal range (between
`2^-1100` and `2^1299`; gradual underflow and overflow to infinity are out
of scope, and all inputs considered lie well inside this range), carrying
exact values as numerator/denominator pairs of naturals so that every step
is kernel-computable: `parseFloat` returns the nearest double to the
decimal value and multiplication rounds the exact product, both with ties
to even; `Math.round` rounds half toward positive infinity. -/

/-- Number of binary digits of `n`, with the recursion fuelled so that it
is structural (exact whenever `n < 2 ^ fuel`). -/
def bitsFuel : Nat → Nat → Nat
  | 0, _ => 0
  | fuel + 1, n => if n = 0 then 0 else bitsFuel fuel (n / 2) + 1

/-- Floor of the base-2 logarithm of the positive rational `num / den`,
computed by scaling to an integer first; exact for values between
`2^-1200` and `2^1299`. -/
def floorLog2 (num den : Nat) : ℤ :=
  (bitsFuel 2500 (2 ^ 1200 * num / den) : ℤ) - 1 - 1200

/-- Significand of `num / den` rounded to the nearest multiple of `2^s`,
ties to even: the result `n` stands for the value `n * 2^s`. -/
def rtneSig (num den : Nat) (s : ℤ) : Nat :=
  let a := num * 2 ^ Int.toNat (-s)
  let b := den * 2 ^ Int.toNat s
  let n := a / b
  let r := a % b
  if 2 * r < b then n
  else if b < 2 * r then n + 1
  else if n % 2 = 0 then n else n + 1

/-- Correctly rounded binary64 value of the positive rational `num / den`,
as significand and exponent: 53 significant bits placed at the value's
binary exponent, ties to even. -/
def fpRoundPair (num den : Nat) : Nat × ℤ :=
  if num = 0 then (0, 0)
  else
    let e := floorLog2 num den
    (rtneSig num den (e - 52), e - 52)

/-- IEEE binary64 evaluation of `Math.round(parseFloat(numStr) * 60)` for
the numeral `mant / 10^frac`: the double nearest the decimal value, times
60 with the product rounded, then `Math.round` (half toward positive
infinity).  Contrast with the exact-rational `hoursToMinutes`. -/
def fpDurationValue (mant frac : Nat) : Nat :=
  let p1 := fpRoundPair mant (10 ^ frac)
  let num1 := p1.1 * 2 ^ Int.toNat p1.2
  let den1 := 2 ^ Int.toNat (-p1.2)
  let p2 := fpRoundPair (num1 * 60) den1
  let num2 := p2.1 * 2 ^ Int.toNat p2.2
  let den2 := 2 ^ Int.toNat (-p2.2)
  (2 * num2 + den2) / (2 * den2)

/-- IEEE binary64 value of `parseInt` applied to the digits of the natural
number `n` (exact for doubles whose value is a natural number, which holds
for every rounded integer in this range).  Contrast with the exact
`digitsToNat` used by the structural parser model. -/
def fpRoundInt (n : Nat) : Nat :=
  let p := fpRoundPair n 1
  p.1 * 2 ^ Int.toNat p.2 / 2 ^ Int.toNat (-p.2)

/-! ## Concrete inputs used by the witness theorems -/

/-- The spec's end-to-end example arguments (§8), unconfirmed. -/
def wArgs : CreateTimeEntryArgs :=
  ⟨some "today", some "2h", some "me", some "S1", none,
   some "Implemented caching layer", none, none⟩

/-- The same arguments with `confirm: true`. -/
def wArgsConfirm : CreateTimeEntryArgs := { wArgs with confirm := some true }

/-- A gateway response for the create call. -/
def wResp : CreatedTimeEntryResponse :=
  ⟨"TE9", ⟨"2024-01-15", 120, none, some "Implemented caching layer",
    some "2024-01-15T10:00:00Z"⟩⟩

/-- A fixed clock value. -/
def wToday : SimpleDate := ⟨2024, 1, 15⟩

/-! ## General lemmas: substring containment -/

theorem containsStr_intro {s a sub b : String} (h : s = a ++ (sub ++ b)) :
    containsStr s sub := by
  refine ⟨a.data, b.data, ?_⟩
  rw [h]
  simp [String.data_append, List.append_assoc]

theorem containsStr_refl (s : String) : containsStr s s :=
  ⟨[], [], by simp⟩

theorem containsStr_append_left (t : String) {s sub : String}
    (h : containsStr s sub) : containsStr (t ++ s) sub := by
  obtain ⟨u, v, huv⟩ := h
  exact ⟨t.data ++ u, v, by simp [String.data_append, ← huv, List.append_assoc]⟩

theorem containsStr_append_right (t : String) {s sub : String}
    (h : containsStr s sub) : containsStr (s ++ t) sub := by
  obtain ⟨u, v, huv⟩ := h
  exact ⟨u, v ++ t.data, by simp [String.data_append, ← huv, List.append_assoc]⟩

theorem containsStr_joinSep {sep x : String} : ∀ {xs : List String}, x ∈ xs →
    containsStr (joinSep sep xs) x
  | [], hx => by cases hx
  | [y], hx => by
    rcases List.mem_singleton.mp hx with rfl
    exact containsStr_refl x
  | y :: z :: xs, hx => by
    rcases List.mem_cons.mp hx with rfl | hx'
    · show containsStr (x ++ sep ++ joinSep sep (z :: xs)) x
      exact containsStr_append_right _ (containsStr_append_right _ (containsStr_refl x))
    · show containsStr (y ++ sep ++ joinSep sep (z :: xs)) x
      rw [String.append_assoc]
      exact containsStr_append_left _ (containsStr_append_left _ (containsStr_joinSep hx'))

/-! ## General lemmas: takeWhile / dropWhile decompositions -/

theorem takeWhile_dropWhile_append {p : Char → Bool} {l r : List Char}
    (hl : ∀ c ∈ l, p c = true) (hr : ∀ c, r.head? = some c → p c = false) :
    (l ++ r).takeWhile p = l ∧ (l ++ r).dropWhile p = r := by
  induction l with
  | nil =>
    cases r with
    | nil => simp
    | cons c t => simp [List.takeWhile, List.dropWhile, hr c rfl]
  | cons c t ih =>
    have hc : p c = true := hl c (by simp)
    have ht := ih (fun x hx => hl x (by simp [hx]))
    simp [List.takeWhile, List.dropWhile, hc, ht.1, ht.2]

theorem dropWhile_head_false {p : Char → Bool} {l : List Char}
    (h : ∀ c, l.head? = some c → p c = false) : l.dropWhile p = l := by
  cases l with
  | nil => rfl
  | cons c t => simp [List.dropWhile, h c rfl]

/-! ## General lemmas: characters and normalization -/

theorem digit_val {c : Char} (h : c.isDigit = true) :
    48 ≤ c.val.toNat ∧ c.val.toNat ≤ 57 := by
  unfold Char.isDigit at h
  simp only [Bool.and_eq_true, decide_eq_true_eq] at h
  exact ⟨h.1, h.2⟩

theorem toLower_digit {c : Char} (h : c.isDigit = true) : c.toLower = c := by
  obtain ⟨h1, h2⟩ := digit_val h
  unfold Char.toLower
  have : ¬ (c.toNat ≥ 65 ∧ c.toNat ≤ 90) := by
    intro ⟨ha, _⟩
    have : c.toNat = c.val.toNat := rfl
    omega
  simp [this]

theorem digit_not_ws {c : Char} (h : c.isDigit = true) : c.isWhitespace = false := by
  obtain ⟨h1, h2⟩ := digit_val h
  unfold Char.isWhitespace
  simp only [Bool.or_eq_false_iff, decide_eq_false_iff_not]
  refine ⟨⟨⟨?_, ?_⟩, ?_⟩, ?_⟩ <;> intro heq <;> subst heq <;> simp_all

theorem jsLower_eq_self {l : List Char} (h : ∀ c ∈ l, c.toLower = c) :
    jsLower l = l := by
  unfold jsLower
  exact List.map_congr_left h |>.trans (List.map_id l)

theorem jsTrim_eq_self {l : List Char} (h : ∀ c ∈ l, c.isWhitespace = false) :
    jsTrim l = l := by
  unfold jsTrim
  have h1 : l.dropWhile Char.isWhitespace = l :=
    dropWhile_head_false fun c hc =>
      h c (List.mem_of_mem_head? (Option.mem_def.mpr hc))
  rw [h1]
  have h2 : l.reverse.dropWhile Char.isWhitespace = l.reverse :=
    dropWhile_head_false fun c hc =>
      h c (by
        have : c ∈ l.reverse := List.mem_of_mem_head? (Option.mem_def.mpr hc)
        simpa using this)
  rw [h2, List.reverse_reverse]

/-! ## Inversion of the create-entry schema parse -/

theorem createTimeEntrySchemaParse_ok {a : CreateTimeEntryArgs}
    {p : CreateTimeEntryParams} (h : createTimeEntrySchemaParse a = .ok p) :
    a.date = some p.date ∧ a.time = some p.time ∧ a.person_id = some p.person_id ∧
    a.service_id = some p.service_id ∧ p.task_id = a.task_id ∧ a.note = some p.note ∧
    p.billable_time = a.billable_time ∧ p.confirm = a.confirm.getD false := by
  unfold createTimeEntrySchemaParse at h
  split at h
  · split at h
    · cases h
      simp_all
    · cases h
  · cases h

theorem createTimeEntryTool_mutation_le_one
    (args : CreateTimeEntryArgs) (userId : Option String) (today : SimpleDate)
    (resp : CreatedTimeEntryResponse) :
    mutationCount (createTimeEntryTool args userId today resp).calls ≤ 1 := by
  unfold createTimeEntryTool
  split
  · simp [mutationCount]
  split
  · simp [mutationCount]
  split
  · simp [mutationCount]
  split
  · simp [mutationCount]
  split
  · simp [mutationCount]
  split
  · simp [mutationCount]
  · simp [mutationCount, GatewayCall.isMutation]

/-- Claim C1: For every `create_time_entry` invocation in which the `confirm`
flag is absent or `false`, the external create call is never invoked: the
gateway-call trace is empty, hence zero mutation attempts, and repeating the
invocation any number of times with the same arguments still produces zero
mutation attempts; when the invocation succeeds, its result is exactly the
human-readable preview of the fully normalized draft (containing the
normalized date, duration rendering and resolved person id); moreover any
single invocation — confirmed or not — makes at most one mutation attempt. -/
theorem c1_unconfirmed_never_mutates
    (args : CreateTimeEntryArgs) (userId : Option String) (today : SimpleDate)
    (resp : CreatedTimeEntryResponse) (hc : args.confirm ≠ some true) :
    (createTimeEntryTool args userId today resp).calls = [] ∧
    mutationCount (createTimeEntryTool args userId today resp).calls = 0 ∧
    (∀ n : Nat, ((List.replicate n (createTimeEntryTool args userId today resp)).map
      (fun r => mutationCount r.calls)).sum = 0) ∧
    (∀ text, (createTimeEntryTool args userId today resp).result = .ok text →
      ∃ p pid pd tm bt,
        createTimeEntrySchemaParse args = .ok p ∧
        resolvePersonId p.person_id userId = .ok pid ∧
        parseDate p.date today = .ok pd ∧
        parseTimeToMinutes p.time = .ok tm ∧
        parseBillableField p.billable_time = .ok bt ∧
        text = previewText pd tm bt pid p.person_id p.service_id p.task_id p.note ∧
        containsStr text pd ∧ containsStr text (timeDisplay tm) ∧ containsStr text pid) ∧
    (∀ (args' : CreateTimeEntryArgs) (userId' : Option String) (today' : SimpleDate)
      (resp' : CreatedTimeEntryResponse),
      mutationCount (createTimeEntryTool args' userId' today' resp').calls ≤ 1) := by
  have main : (createTimeEntryTool args userId today resp).calls = [] ∧
      (∀ text, (createTimeEntryTool args userId today resp).result = .ok text →
        ∃ p pid pd tm bt,
          createTimeEntrySchemaParse args = .ok p ∧
          resolvePersonId p.person_id userId = .ok pid ∧
          parseDate p.date today = .ok pd ∧
          parseTimeToMinutes p.time = .ok tm ∧
          parseBillableField p.billable_time = .ok bt ∧
          text = previewText pd tm bt pid p.person_id p.service_id p.task_id p.note ∧
          containsStr text pd ∧ containsStr text (timeDisplay tm) ∧
          containsStr text pid) := by
    unfold createTimeEntryTool
    split
    · simp
    · rename_i p hp
      have hconf : p.confirm = false := by
        have h8 := (createTimeEntrySchemaParse_ok hp).2.2.2.2.2.2.2
        cases hargs : args.confirm with
        | none => simpa [hargs] using h8
        | some b =>
          cases b with
          | false => simpa [hargs] using h8
          | true => exact absurd hargs hc
      split
      · simp
      · rename_i pid hr
        split
        · simp
        · rename_i pd hd
          split
          · simp
          · rename_i tm ht
            split
            · simp
            · rename_i bt hb
              rw [if_pos hconf]
              refine ⟨rfl, ?_⟩
              intro text htext
              obtain rfl : text = previewText pd tm bt pid p.person_id p.service_id
                  p.task_id p.note := by
                cases htext; rfl
              refine ⟨p, pid, pd, tm, bt, hp, hr, hd, ht, hb, rfl, ?_, ?_, ?_⟩
              · simp only [previewText]
                repeat (first
                  | exact containsStr_append_left _ (containsStr_refl _)
                  | apply containsStr_append_right)
              · simp only [previewText]
                repeat (first
                  | exact containsStr_append_left _ (containsStr_refl _)
                  | apply containsStr_append_right)
              · simp only [previewText]
                repeat (first
                  | exact containsStr_append_left _ (containsStr_refl _)
                  | apply containsStr_append_right)
  refine ⟨main.1, by simp [main.1, mutationCount], ?_, main.2, ?_⟩
  · intro n
    simp [main.1, mutationCount]
  · intro args' userId' today' resp'
    exact createTimeEntryTool_mutation_le_one args' userId' today' resp'

/-- Witness for C1: the spec's §8 example input, `confirm` absent. -/
theorem c1_witness :
    (createTimeEntryTool wArgs (some "42") wToday wResp).calls = [] ∧
    mutationCount (createTimeEntryTool wArgs (some "42") wToday wResp).calls = 0 :=
  ⟨(c1_unconfirmed_never_mutates wArgs (some "42") wToday wResp (by decide)).1,
   (c1_unconfirmed_never_mutates wArgs (some "42") wToday wResp (by decide)).2.1⟩

/-- Claim C2: For every `create_time_entry` invocation with valid arguments and
`confirm = true`, the external create call is invoked exactly once, carrying
the fully normalized draft — the parsed `YYYY-MM-DD` date, the duration in
integer minutes, and the resolved person id — and the returned confirmation
text contains the server-assigned identifier from the gateway's response. -/
theorem c2_confirmed_single_create
    (args : CreateTimeEntryArgs) (userId : Option String) (today : SimpleDate)
    (resp : CreatedTimeEntryResponse) (p : CreateTimeEntryParams)
    (pid pd : String) (tm : Nat) (bt : Option Nat)
    (hp : createTimeEntrySchemaParse args = .ok p)
    (hc : p.confirm = true)
    (hr : resolvePersonId p.person_id userId = .ok pid)
    (hd : parseDate p.date today = .ok pd)
    (ht : parseTimeToMinutes p.time = .ok tm)
    (hb : parseBillableField p.billable_time = .ok bt) :
    (createTimeEntryTool args userId today resp).calls =
      [.createTimeEntryC (buildPayload pd tm bt p.note pid p.service_id p.task_id)] ∧
    mutationCount (createTimeEntryTool args userId today resp).calls = 1 ∧
    (createTimeEntryTool args userId today resp).result =
      .ok (createdText resp pid p.person_id userId p.service_id p.task_id) ∧
    containsStr (createdText resp pid p.person_id userId p.service_id p.task_id)
      resp.id := by
  unfold createTimeEntryTool
  simp only [hp, hr, hd, ht, hb, hc]
  refine ⟨rfl, by simp [mutationCount, GatewayCall.isMutation], rfl, ?_⟩
  simp only [createdText]
  repeat (first
    | exact containsStr_append_left _ (containsStr_refl _)
    | apply containsStr_append_right)

/-- Witness for C2: the spec's §8 example with `confirm: true`; the single
gateway call carries `date 2024-01-15`, `time 120`, person `42` (resolved
from `"me"`), service `S1`. -/
theorem c2_witness :
    (createTimeEntryTool wArgsConfirm (some "42") wToday wResp).calls =
      [.createTimeEntryC ⟨⟨"2024-01-15", 120, none, some "Implemented caching layer"⟩,
        ⟨"42", "S1", none⟩⟩] ∧
    containsStr (createdText wResp "42" "me" (some "42") "S1" none) wResp.id :=
  let h := c2_confirmed_single_create wArgsConfirm (some "42") wToday wResp
    ⟨"today", "2h", "me", "S1", none, "Implemented caching layer", none, true⟩
    "42" "2024-01-15" 120 none rfl rfl rfl rfl rfl rfl
  ⟨h.1, h.2.2.2⟩

theorem createTimeEntryIssues_error {a : CreateTimeEntryArgs}
    (h : createTimeEntryIssues a ≠ []) :
    ∃ msgs, createTimeEntrySchemaParse a = .error msgs := by
  unfold createTimeEntrySchemaParse
  split
  · split
    · rename_i hiss; exact absurd hiss h
    · exact ⟨_, rfl⟩
  · exact ⟨_, rfl⟩

theorem createTimeEntryTool_cases
    (args : CreateTimeEntryArgs) (userId : Option String) (today : SimpleDate)
    (resp : CreatedTimeEntryResponse) :
    ((createTimeEntryTool args userId today resp).calls = [] ∧
      ∃ e, (createTimeEntryTool args userId today resp).result = .error e) ∨
    (∃ p pid pd tm bt, createTimeEntrySchemaParse args = .ok p ∧
      resolvePersonId p.person_id userId = .ok pid ∧
      parseDate p.date today = .ok pd ∧ parseTimeToMinutes p.time = .ok tm ∧
      parseBillableField p.billable_time = .ok bt ∧
      ∃ text, (createTimeEntryTool args userId today resp).result = .ok text) := by
  unfold createTimeEntryTool
  split
  · exact Or.inl ⟨rfl, _, rfl⟩
  · rename_i p hp
    split
    · exact Or.inl ⟨rfl, _, rfl⟩
    · rename_i pid hr
      split
      · exact Or.inl ⟨rfl, _, rfl⟩
      · rename_i pd hd
        split
        · exact Or.inl ⟨rfl, _, rfl⟩
        · rename_i tm ht
          split
          · exact Or.inl ⟨rfl, _, rfl⟩
          · rename_i bt hb
            refine Or.inr ⟨p, pid, pd, tm, bt, hp, hr, hd, ht, hb, ?_⟩
            split
            · exact ⟨_, rfl⟩
            · exact ⟨_, rfl⟩

/-- Claim C3: For every `create_time_entry` invocation, on the preview and the
confirmed path alike: whenever the invocation fails, its gateway-call trace
is empty (no partial draft was sent upstream, upstream state unchanged);
whenever it succeeds, the schema check, actor resolution, date parse,
duration parse and billable-duration parse all succeeded first; and a `note`
that is absent or shorter than 10 characters always fails with an error and
an empty trace. -/
theorem c3_validation_before_network
    (args : CreateTimeEntryArgs) (userId : Option String) (today : SimpleDate)
    (resp : CreatedTimeEntryResponse) :
    ((∃ e, (createTimeEntryTool args userId today resp).result = .error e) →
      (createTimeEntryTool args userId today resp).calls = []) ∧
    ((∃ text, (createTimeEntryTool args userId today resp).result = .ok text) →
      ∃ p pid pd tm bt, createTimeEntrySchemaParse args = .ok p ∧
        resolvePersonId p.person_id userId = .ok pid ∧
        parseDate p.date today = .ok pd ∧ parseTimeToMinutes p.time = .ok tm ∧
        parseBillableField p.billable_time = .ok bt) ∧
    (∀ n, args.note = some n → n.length < 10 →
      (createTimeEntryTool args userId today resp).calls = [] ∧
      ∃ e, (createTimeEntryTool args userId today resp).result = .error e) ∧
    (args.note = none →
      (createTimeEntryTool args userId today resp).calls = [] ∧
      ∃ e, (createTimeEntryTool args userId today resp).result = .error e) := by
  have hcases := createTimeEntryTool_cases args userId today resp
  refine ⟨?_, ?_, ?_, ?_⟩
  · intro ⟨e, he⟩
    rcases hcases with ⟨hc, _⟩ | ⟨_, _, _, _, _, _, _, _, _, _, text, htext⟩
    · exact hc
    · rw [he] at htext; cases htext
  · intro ⟨text, htext⟩
    rcases hcases with ⟨_, e, he⟩ | ⟨p, pid, pd, tm, bt, h1, h2, h3, h4, h5, _⟩
    · rw [he] at htext; cases htext
    · exact ⟨p, pid, pd, tm, bt, h1, h2, h3, h4, h5⟩
  · intro n hn hlen
    have hiss : createTimeEntryIssues args ≠ [] := by
      simp [createTimeEntryIssues, zodRequiredString, hn, hlen]
    obtain ⟨msgs, hmsgs⟩ := createTimeEntryIssues_error hiss
    rcases hcases with ⟨hc, he⟩ | ⟨p, _, _, _, _, h1, _⟩
    · exact ⟨hc, he⟩
    · rw [hmsgs] at h1; cases h1
  · intro hn
    have hiss : createTimeEntryIssues args ≠ [] := by
      simp [createTimeEntryIssues, zodRequiredString, hn]
    obtain ⟨msgs, hmsgs⟩ := createTimeEntryIssues_error hiss
    rcases hcases with ⟨hc, he⟩ | ⟨p, _, _, _, _, h1, _⟩
    · exact ⟨hc, he⟩
    · rw [hmsgs] at h1; cases h1

/-- Witness for C3: a note of 5 characters fails with an error and an empty
trace, on the preview path. -/
theorem c3_witness :
    (createTimeEntryTool { wArgs with note := some "short" } (some "42")
      wToday wResp).calls = [] ∧
    ∃ e, (createTimeEntryTool { wArgs with note := some "short" } (some "42")
      wToday wResp).result = .error e :=
  (c3_validation_before_network { wArgs with note := some "short" } (some "42")
    wToday wResp).2.2.1 "short" rfl (by decide)

theorem listTimeEntresTool_run
    (args : ListTimeEntriesArgs) (u : Option String)
    (resp : ListResponse TimeEntryRecord) (pid : Option String)
    (hlim : zodLimitIssues args.limit = [])
    (hres : resolveOptPerson args.person_id u = .ok pid) :
    (listTimeEntresTool args u resp).calls =
      [.listTimeEntriesC ⟨args.date, args.after, args.before, pid,
        args.project_id, args.task_id, args.service_id, args.limit⟩] := by
  unfold listTimeEntresTool listTimeEntriesSchemaParse
  simp only [hlim, hres]
  split <;> rfl

theorem listTimeEntresTool_me_fail
    (args : ListTimeEntriesArgs) (u : Option String)
    (resp : ListResponse TimeEntryRecord)
    (hlim : zodLimitIssues args.limit = [])
    (hme : args.person_id = some "me") (hu : truthyStr u = false) :
    (listTimeEntresTool args u resp).calls = [] ∧
    ∃ e, (listTimeEntresTool args u resp).result = .error e := by
  unfold listTimeEntresTool listTimeEntriesSchemaParse
  have hres : resolveOptPerson args.person_id u = .error ⟨.invalidParams,
      "Cannot use \"me\" reference - PRODUCTIVE_USER_ID is not configured in environment"⟩ := by
    simp [resolveOptPerson, hme, resolvePersonId, hu, Except.map]
  simp only [hlim, hres]
  exact ⟨trivial, _, by rfl⟩

/-- Claim C6: Actor resolution follows one uniform rule in both
`list_time_entries` and `create_time_entry`: a person token other than
`"me"` is returned and forwarded unchanged with no existence check; `"me"`
resolves to the configured actor when one is configured; and `"me"` with no
configured actor fails before any network call, in both tools. -/
theorem c6_actor_resolution_uniform :
    (∀ (q : String) (u : Option String), q ≠ "me" → resolvePersonId q u = .ok q) ∧
    (∀ a : String, a ≠ "" → resolvePersonId "me" (some a) = .ok a) ∧
    (∀ u : Option String, truthyStr u = false →
      ∃ e, resolvePersonId "me" u = .error e) ∧
    (∀ (args : ListTimeEntriesArgs) (u : Option String)
      (resp : ListResponse TimeEntryRecord) (q : String),
      zodLimitIssues args.limit = [] → args.person_id = some q → q ≠ "me" →
      (listTimeEntresTool args u resp).calls =
        [.listTimeEntriesC ⟨args.date, args.after, args.before, some q,
          args.project_id, args.task_id, args.service_id, args.limit⟩]) ∧
    (∀ (args : ListTimeEntriesArgs) (a : String)
      (resp : ListResponse TimeEntryRecord),
      zodLimitIssues args.limit = [] → args.person_id = some "me" → a ≠ "" →
      (listTimeEntresTool args (some a) resp).calls =
        [.listTimeEntriesC ⟨args.date, args.after, args.before, some a,
          args.project_id, args.task_id, args.service_id, args.limit⟩]) ∧
    (∀ (args : ListTimeEntriesArgs) (u : Option String)
      (resp : ListResponse TimeEntryRecord),
      zodLimitIssues args.limit = [] → args.person_id = some "me" →
      truthyStr u = false →
      (listTimeEntresTool args u resp).calls = [] ∧
      ∃ e, (listTimeEntresTool args u resp).result = .error e) ∧
    (∀ (args : CreateTimeEntryArgs) (u : Option String) (today : SimpleDate)
      (resp : CreatedTimeEntryResponse) (p : CreateTimeEntryParams),
      createTimeEntrySchemaParse args = .ok p → p.person_id = "me" →
      truthyStr u = false →
      (createTimeEntryTool args u today resp).calls = [] ∧
      ∃ e, (createTimeEntryTool args u today resp).result = .error e) := by
  have h1 : ∀ (q : String) (u : Option String), q ≠ "me" →
      resolvePersonId q u = .ok q := by
    intro q u hq
    simp [resolvePersonId, hq]
  have h2 : ∀ a : String, a ≠ "" → resolvePersonId "me" (some a) = .ok a := by
    intro a ha
    simp [resolvePersonId, truthyStr, ha]
  have h3 : ∀ u : Option String, truthyStr u = false →
      ∃ e, resolvePersonId "me" u = .error e := by
    intro u hu
    exact ⟨⟨.invalidParams,
      "Cannot use \"me\" reference - PRODUCTIVE_USER_ID is not configured in environment"⟩,
      by simp [resolvePersonId, hu]⟩
  refine ⟨h1, h2, h3, ?_, ?_, ?_, ?_⟩
  · intro args u resp q hlim hq hqme
    exact listTimeEntresTool_run args u resp (some q) hlim
      (by simp [resolveOptPerson, hq, h1 q u hqme, Except.map])
  · intro args a resp hlim hme ha
    exact listTimeEntresTool_run args (some a) resp (some a) hlim
      (by simp [resolveOptPerson, hme, h2 a ha, Except.map])
  · intro args u resp hlim hme hu
    exact listTimeEntresTool_me_fail args u resp hlim hme hu
  · intro args u today resp p hp hme hu
    obtain ⟨e, he⟩ := h3 u hu
    unfold createTimeEntryTool
    simp only [hp, hme, he]
    exact ⟨trivial, _, by rfl⟩

/-- Witness for C6: `resolveActor("99","42") = "99"`, `("me","42") = "42"`,
`("me", none)` fails; the list tool forwards `99` unchanged and fails on
`"me"` without a configured id. -/
theorem c6_witness :
    resolvePersonId "99" (some "42") = .ok "99" ∧
    resolvePersonId "me" (some "42") = .ok "42" ∧
    (∃ e, resolvePersonId "me" none = .error e) ∧
    (listTimeEntresTool ⟨none, none, none, some "99", none, none, none, none⟩
      (some "42") ⟨[], none⟩).calls =
      [.listTimeEntriesC ⟨none, none, none, some "99", none, none, none, none⟩] ∧
    (listTimeEntresTool ⟨none, none, none, some "me", none, none, none, none⟩
      none ⟨[], none⟩).calls = [] :=
  ⟨c6_actor_resolution_uniform.1 "99" (some "42") (by decide),
   c6_actor_resolution_uniform.2.1 "42" (by decide),
   c6_actor_resolution_uniform.2.2.1 none rfl,
   c6_actor_resolution_uniform.2.2.2.1
     ⟨none, none, none, some "99", none, none, none, none⟩ (some "42")
     ⟨[], none⟩ "99" rfl rfl (by decide),
   (c6_actor_resolution_uniform.2.2.2.2.2.1
     ⟨none, none, none, some "me", none, none, none, none⟩ none
     ⟨[], none⟩ rfl rfl rfl).1⟩

/-- Claim C7: Each workflow-step operation rejects, before any network call,
an input lacking its declared required identifier: `list_project_deals`
requires `project_id`, `list_deal_services` requires `deal_id`, and
`create_time_entry` requires `service_id` (hard failures); whereas a missing
`task_id` on `create_time_entry` only surfaces as the soft `No task
specified` line in the preview and never blocks the confirmed creation, and
a supplied `task_id` is forwarded unchanged with no ancestry re-validation. -/
theorem c7_required_identifiers :
    (∀ (args : ListProjectDealsArgs) (resp : ListResponse DealRecord),
      args.project_id = none →
      (listProjectDealsTool args resp).calls = [] ∧
      ∃ e, (listProjectDealsTool args resp).result = .error e) ∧
    (∀ (args : ListDealServicesArgs) (resp : ListResponse ServiceRecord),
      args.deal_id = none →
      (listDealServicesTool args resp).calls = [] ∧
      ∃ e, (listDealServicesTool args resp).result = .error e) ∧
    (∀ (args : CreateTimeEntryArgs) (u : Option String) (today : SimpleDate)
      (resp : CreatedTimeEntryResponse),
      args.service_id = none →
      (createTimeEntryTool args u today resp).calls = [] ∧
      ∃ e, (createTimeEntryTool args u today resp).result = .error e) ∧
    (∀ (args : CreateTimeEntryArgs) (u : Option String) (today : SimpleDate)
      (resp : CreatedTimeEntryResponse) (p : CreateTimeEntryParams)
      (pid pd : String) (tm : Nat) (bt : Option Nat),
      createTimeEntrySchemaParse args = .ok p →
      resolvePersonId p.person_id u = .ok pid →
      parseDate p.date today = .ok pd →
      parseTimeToMinutes p.time = .ok tm →
      parseBillableField p.billable_time = .ok bt →
      p.task_id = none →
      (p.confirm = false → ∃ text,
        (createTimeEntryTool args u today resp).result = .ok text ∧
        containsStr text "No task specified") ∧
      (p.confirm = true →
        mutationCount (createTimeEntryTool args u today resp).calls = 1 ∧
        ∃ text, (createTimeEntryTool args u today resp).result = .ok text)) ∧
    (∀ (args : CreateTimeEntryArgs) (u : Option String) (today : SimpleDate)
      (resp : CreatedTimeEntryResponse) (p : CreateTimeEntryParams)
      (pid pd tid : String) (tm : Nat) (bt : Option Nat),
      createTimeEntrySchemaParse args = .ok p →
      resolvePersonId p.person_id u = .ok pid →
      parseDate p.date today = .ok pd →
      parseTimeToMinutes p.time = .ok tm →
      parseBillableField p.billable_time = .ok bt →
      p.task_id = some tid → tid ≠ "" → p.confirm = true →
      (createTimeEntryTool args u today resp).calls =
        [.createTimeEntryC (buildPayload pd tm bt p.note pid p.service_id p.task_id)] ∧
      (buildPayload pd tm bt p.note pid p.service_id p.task_id).relationships.task =
        some tid) := by
  refine ⟨?_, ?_, ?_, ?_, ?_⟩
  · intro args resp hnone
    unfold listProjectDealsTool listProjectDealsSchemaParse
    simp only [hnone]
    exact ⟨trivial, _, by rfl⟩
  · intro args resp hnone
    unfold listDealServicesTool listDealServicesSchemaParse
    simp only [hnone]
    exact ⟨trivial, _, by rfl⟩
  · intro args u today resp hnone
    have hiss : createTimeEntryIssues args ≠ [] := by
      simp [createTimeEntryIssues, zodRequiredString, hnone]
    obtain ⟨msgs, hmsgs⟩ := createTimeEntryIssues_error hiss
    rcases createTimeEntryTool_cases args u today resp with
      ⟨hc, he⟩ | ⟨p, _, _, _, _, h1, _⟩
    · exact ⟨hc, he⟩
    · rw [hmsgs] at h1; cases h1
  · intro args u today resp p pid pd tm bt hp hr hd ht hb htask
    unfold createTimeEntryTool
    simp only [hp, hr, hd, ht, hb]
    constructor
    · intro hconf
      rw [if_pos hconf]
      refine ⟨_, rfl, ?_⟩
      simp only [previewText, htask, truthyStr]
      repeat (first
        | exact containsStr_append_left _ (containsStr_refl _)
        | apply containsStr_append_right)
    · intro hconf
      simp only [hconf]
      exact ⟨by simp [mutationCount, GatewayCall.isMutation], _, by rfl⟩
  · intro args u today resp p pid pd tid tm bt hp hr hd ht hb htask htid hconf
    unfold createTimeEntryTool
    simp only [hp, hr, hd, ht, hb, hconf]
    refine ⟨by rfl, ?_⟩
    simp [buildPayload, htask, truthyStr, htid]

/-- Witness for C7: missing `project_id`, `deal_id` and `service_id` are
each rejected with an empty trace; a missing `task_id` still previews with
the soft warning; a supplied `task_id` `T7` reaches the payload unchanged. -/
theorem c7_witness :
    (listProjectDealsTool ⟨none, none, none⟩ ⟨[], none⟩).calls = [] ∧
    (listDealServicesTool ⟨none, none⟩ ⟨[], none⟩).calls = [] ∧
    (createTimeEntryTool { wArgs with service_id := none } (some "42")
      wToday wResp).calls = [] ∧
    (∃ text, (createTimeEntryTool wArgs (some "42") wToday wResp).result =
      .ok text ∧ containsStr text "No task specified") ∧
    (buildPayload "2024-01-15" 120 none "Implemented caching layer" "42" "S1"
      (some "T7")).relationships.task = some "T7" :=
  ⟨(c7_required_identifiers.1 ⟨none, none, none⟩ ⟨[], none⟩ rfl).1,
   (c7_required_identifiers.2.1 ⟨none, none⟩ ⟨[], none⟩ rfl).1,
   (c7_required_identifiers.2.2.1 { wArgs with service_id := none } (some "42")
     wToday wResp rfl).1,
   (c7_required_identifiers.2.2.2.1 wArgs (some "42") wToday wResp
     ⟨"today", "2h", "me", "S1", none, "Implemented caching layer", none, false⟩
     "42" "2024-01-15" 120 none rfl rfl rfl rfl rfl rfl).1 rfl,
   (c7_required_identifiers.2.2.2.2
     { wArgs with task_id := some "T7", confirm := some true } (some "42") wToday wResp
     ⟨"today", "2h", "me", "S1", some "T7", "Implemented caching layer", none, true⟩
     "42" "2024-01-15" "T7" 120 none rfl rfl rfl rfl rfl rfl (by decide) rfl).2⟩

theorem string_length_zero {p : String} (h0 : p.length = 0) : p = "" := by
  cases p with
  | mk data =>
    cases data with
    | nil => rfl
    | cons c t => simp [String.length] at h0

theorem getProjectServicesSchemaParse_ok {p : String} {l : Option Nat}
    (hp : p ≠ "") (hl : zodLimitIssues l = []) :
    getProjectServicesSchemaParse ⟨some p, l⟩ = .ok ⟨p, l⟩ := by
  have hlen : ¬ p.length < 1 := by
    have : p.length ≠ 0 := fun h0 => hp (string_length_zero h0)
    omega
  unfold getProjectServicesSchemaParse zodRequiredString
  simp [hlen, hl]

/-- Claim C10: For every pair of `project_id` values, the deprecated
`get_project_services` operation issues the identical gateway requests — a
`listProjects` probe with `limit 1` and an unfiltered `listServices` call
carrying only the `limit` argument, no project or company filter — so the
`project_id` argument influences neither which services are requested nor
the listed services block, only the wording of the surrounding message. -/
theorem c10_project_services_ignores_project
    (p1 p2 : String) (l : Option Nat) (resp : ListResponse ServiceRecord)
    (h1 : p1 ≠ "") (h2 : p2 ≠ "") (hl : zodLimitIssues l = []) :
    (getProjectServicesTool ⟨some p1, l⟩ resp).calls =
      (getProjectServicesTool ⟨some p2, l⟩ resp).calls ∧
    (getProjectServicesTool ⟨some p1, l⟩ resp).calls =
      [.listProjectsC (some 1), .listServicesC none l] ∧
    (resp.data ≠ [] →
      ∃ t1 t2, (getProjectServicesTool ⟨some p1, l⟩ resp).result = .ok t1 ∧
        (getProjectServicesTool ⟨some p2, l⟩ resp).result = .ok t2 ∧
        containsStr t1 (projectServicesText resp) ∧
        containsStr t2 (projectServicesText resp)) := by
  have run : ∀ p : String, p ≠ "" →
      (getProjectServicesTool ⟨some p, l⟩ resp).calls =
        [.listProjectsC (some 1), .listServicesC none l] ∧
      (resp.data ≠ [] → ∃ t, (getProjectServicesTool ⟨some p, l⟩ resp).result =
        .ok t ∧ containsStr t (projectServicesText resp)) := by
    intro p hp
    unfold getProjectServicesTool
    simp only [getProjectServicesSchemaParse_ok hp hl]
    constructor
    · split <;> rfl
    · intro hne
      rw [if_neg hne]
      refine ⟨_, rfl, ?_⟩
      exact containsStr_append_left _ (containsStr_refl _)
  obtain ⟨hc1, ht1⟩ := run p1 h1
  obtain ⟨hc2, ht2⟩ := run p2 h2
  refine ⟨hc1.trans hc2.symm, hc1, ?_⟩
  intro hne
  obtain ⟨t1, ht1', hct1⟩ := ht1 hne
  obtain ⟨t2, ht2', hct2⟩ := ht2 hne
  exact ⟨t1, t2, ht1', ht2', hct1, hct2⟩

/-- Witness for C10: projects `P1` and `P2` produce the same calls and the
same listed-services block. -/
theorem c10_witness :
    (getProjectServicesTool ⟨some "P1", none⟩
        ⟨[⟨"S1", "Dev", none, none⟩], none⟩).calls =
      (getProjectServicesTool ⟨some "P2", none⟩
        ⟨[⟨"S1", "Dev", none, none⟩], none⟩).calls ∧
    (getProjectServicesTool ⟨some "P1", none⟩
        ⟨[⟨"S1", "Dev", none, none⟩], none⟩).calls =
      [.listProjectsC (some 1), .listServicesC none none] :=
  let h := c10_project_services_ignores_project "P1" "P2" none
    ⟨[⟨"S1", "Dev", none, none⟩], none⟩ (by decide) (by decide) rfl
  ⟨h.1, h.2.1⟩

/-! ## Date-normalizer lemmas -/

theorem normalizeInput_fixed {s : String}
    (h : ∀ c ∈ s.data, c.isDigit = true ∨ c = '-') : normalizeInput s = s.data := by
  unfold normalizeInput
  have hl : jsLower s.data = s.data := jsLower_eq_self (fun c hc => by
    rcases h c hc with hd | rfl
    · exact toLower_digit hd
    · decide)
  rw [hl]
  exact jsTrim_eq_self (fun c hc => by
    rcases h c hc with hd | rfl
    · exact digit_not_ws hd
    · decide)

theorem dateShape_chars {cs : List Char} {y mo d : Nat} (h : DateShape cs y mo d) :
    ∀ c ∈ cs, c.isDigit = true ∨ c = '-' := by
  obtain ⟨a, b, c', e, f, g, hh, i, rfl, hdig, -, -, -⟩ := h
  intro x hx
  simp only [List.mem_cons, List.not_mem_nil, or_false] at hx
  rcases hx with rfl | rfl | rfl | rfl | rfl | rfl | rfl | rfl | rfl | rfl
  · exact Or.inl (hdig x (by simp))
  · exact Or.inl (hdig x (by simp))
  · exact Or.inl (hdig x (by simp))
  · exact Or.inl (hdig x (by simp))
  · exact Or.inr rfl
  · exact Or.inl (hdig x (by simp))
  · exact Or.inl (hdig x (by simp))
  · exact Or.inr rfl
  · exact Or.inl (hdig x (by simp))
  · exact Or.inl (hdig x (by simp))

theorem dateMatchCore_of_shape {cs : List Char} {y mo d : Nat}
    (h : DateShape cs y mo d) : dateMatchCore cs = some (y, mo, d) := by
  obtain ⟨a, b, c', e, f, g, hh, i, rfl, hdig, hy, hmo, hd⟩ := h
  unfold dateMatchCore
  have hall : ([a, b, c', e, f, g, hh, i]).all Char.isDigit = true := by
    rw [List.all_eq_true]
    exact hdig
  simp [hall, hy, hmo, hd]

theorem dateShape_ne_relative {cs : List Char} {y mo d : Nat}
    (h : DateShape cs y mo d) :
    cs ≠ ['t', 'o', 'd', 'a', 'y'] ∧
    cs ≠ ['y', 'e', 's', 't', 'e', 'r', 'd', 'a', 'y'] := by
  obtain ⟨a, b, c', e, f, g, hh, i, rfl, -, -, -, -⟩ := h
  constructor <;> intro heq <;> simp at heq

/-- Claim C5: The date normalizer satisfies its contract: a case-insensitive
`today` (after trimming) yields today's date in `YYYY-MM-DD` form;
`yesterday` yields the previous calendar day; an input exactly matching
`YYYY-MM-DD` with month in `[1,12]` and day in `[1,31]` is returned
unchanged regardless of the clock (range check only, so `2024-02-31` is
accepted); a matching shape with a field out of range fails, and any other
shape — e.g. `2024-13-01` or `not-a-date` — also fails, each error naming
the input. -/
theorem c5_parseDate_contract (s : String) (t : SimpleDate) :
    (normalizeInput s = "today".data → parseDate s t = .ok (formatISO t)) ∧
    (normalizeInput s = "yesterday".data →
      parseDate s t = .ok (formatISO (prevDay t))) ∧
    (∀ y mo d, DateShape s.data y mo d → 1 ≤ mo → mo ≤ 12 → 1 ≤ d → d ≤ 31 →
      parseDate s t = .ok s) ∧
    (∀ y mo d, DateShape (normalizeInput s) y mo d →
      (mo < 1 ∨ mo > 12 ∨ d < 1 ∨ d > 31) →
      parseDate s t = .error ("Invalid date: " ++ s)) ∧
    (normalizeInput s ≠ "today".data → normalizeInput s ≠ "yesterday".data →
      dateMatchCore (normalizeInput s) = none →
      parseDate s t = .error ("Invalid date format: " ++ s ++
        ". Use \"today\", \"yesterday\", or YYYY-MM-DD format")) ∧
    parseDate "2024-02-31" t = .ok "2024-02-31" ∧
    parseDate "2024-13-01" t = .error "Invalid date: 2024-13-01" ∧
    parseDate "not-a-date" t = .error ("Invalid date format: not-a-date. " ++
      "Use \"today\", \"yesterday\", or YYYY-MM-DD format") := by
  refine ⟨?_, ?_, ?_, ?_, ?_, ?_, ?_, ?_⟩
  · intro h
    simp [parseDate, h]
  · intro h
    have hne : ("yesterday".data : List Char) ≠ ['t', 'o', 'd', 'a', 'y'] := by decide
    simp [parseDate, h, hne]
  · intro y mo d hsh h1 h2 h3 h4
    have hnorm : normalizeInput s = s.data := normalizeInput_fixed (dateShape_chars hsh)
    have hmc := dateMatchCore_of_shape hsh
    have hrel := dateShape_ne_relative hsh
    have hrange : ¬ (mo < 1 ∨ mo > 12 ∨ d < 1 ∨ d > 31) := by omega
    simp only [parseDate, hnorm, hmc, if_neg hrel.1, if_neg hrel.2, if_neg hrange]
  · intro y mo d hsh hrange
    have hmc := dateMatchCore_of_shape hsh
    have hrel := dateShape_ne_relative hsh
    simp only [parseDate, hmc, if_neg hrel.1, if_neg hrel.2, if_pos hrange]
  · intro h1 h2 hmc
    have h1' : normalizeInput s ≠ ['t', 'o', 'd', 'a', 'y'] := h1
    have h2' : normalizeInput s ≠ ['y', 'e', 's', 't', 'e', 'r', 'd', 'a', 'y'] := h2
    simp only [parseDate, hmc, if_neg h1', if_neg h2']
  · rfl
  · rfl
  · rfl

/-- Witness for C5: the contract instantiated at `TODAY` with the fixed
clock 2024-01-15, at the calendar-invalid but accepted `2024-02-31`, and at
the rejected `2024-13-01`. -/
theorem c5_witness :
    parseDate "TODAY" ⟨2024, 1, 15⟩ = .ok "2024-01-15" ∧
    parseDate "2024-02-31" ⟨2024, 1, 15⟩ = .ok "2024-02-31" ∧
    parseDate "2024-13-01" ⟨2024, 1, 15⟩ = .error "Invalid date: 2024-13-01" :=
  ⟨by
    have h := (c5_parseDate_contract "TODAY" ⟨2024, 1, 15⟩).1 (by decide)
    simpa using h,
   (c5_parseDate_contract "2024-02-31" ⟨2024, 1, 15⟩).2.2.2.2.2.1,
   (c5_parseDate_contract "2024-13-01" ⟨2024, 1, 15⟩).2.2.2.2.2.2.1⟩

/-- Claim C8, counterexample: The claim asserts `parseDate` takes the `today`
reference as an explicit parameter rather than reading hidden global time,
so that evaluations at different wall-clock times agree.  In the source,
`parseDate(dateInput)` has no such parameter and reads `new Date()` —
modelled here as the clock input — so evaluating `"today"` at two different
wall-clock dates yields different results. -/
theorem c8_counterexample :
    parseDate "today" ⟨2024, 1, 15⟩ ≠ parseDate "today" ⟨2024, 1, 16⟩ := by
  decide

/-- Claim C8, amended: `parseDate` reads `today` from the global clock at
call time (it takes no `today` parameter); its result is a function of the
input string and that clock reading only, and for every input other than
the relative tokens `today` / `yesterday` the result is independent of the
clock — two evaluations at different wall-clock times agree. -/
theorem c8_clock_independent_for_absolute (s : String) (t1 t2 : SimpleDate)
    (h1 : normalizeInput s ≠ "today".data)
    (h2 : normalizeInput s ≠ "yesterday".data) :
    parseDate s t1 = parseDate s t2 := by
  have h1' : normalizeInput s ≠ ['t', 'o', 'd', 'a', 'y'] := h1
  have h2' : normalizeInput s ≠ ['y', 'e', 's', 't', 'e', 'r', 'd', 'a', 'y'] := h2
  simp only [parseDate, if_neg h1', if_neg h2']

/-- Witness for the amended C8: the absolute date `2024-01-15` parses the
same under two different clock values. -/
theorem c8_witness :
    parseDate "2024-01-15" ⟨2024, 1, 15⟩ = parseDate "2024-01-15" ⟨2030, 6, 6⟩ :=
  c8_clock_independent_for_absolute "2024-01-15" ⟨2024, 1, 15⟩ ⟨2030, 6, 6⟩
    (by decide) (by decide)

/-! ## Rendering lemmas -/

theorem containsStr_trans {a b c : String} (h1 : containsStr a b)
    (h2 : containsStr b c) : containsStr a c :=
  List.IsInfix.trans h2 h1

theorem pageTotalMinutes_eq_sum (l : List TimeEntryRecord) :
    pageTotalMinutes l = (l.map (fun e => e.time)).sum := by
  unfold pageTotalMinutes
  have h : ∀ (m : List TimeEntryRecord) (acc : Nat),
      m.foldl (fun sum e => sum + e.time) acc =
        acc + (m.map (fun e => e.time)).sum := by
    intro m
    induction m with
    | nil => intro acc; simp
    | cons x xs ih => intro acc; simp [ih]; omega
  simpa using h l 0

theorem timeDisplay_rule (m : Nat) :
    (m = 0 → timeDisplay m = "0m") ∧
    (0 < m → m < 60 → timeDisplay m = toString m ++ "m") ∧
    (60 ≤ m → m % 60 = 0 → timeDisplay m = toString (m / 60) ++ "h") ∧
    (60 ≤ m → 0 < m % 60 →
      timeDisplay m = toString (m / 60) ++ "h " ++ toString (m % 60) ++ "m") := by
  refine ⟨?_, ?_, ?_, ?_⟩
  · rintro rfl; rfl
  · intro h1 h2
    have hdiv : m / 60 = 0 := Nat.div_eq_of_lt h2
    have hmod : m % 60 = m := Nat.mod_eq_of_lt h2
    simp [timeDisplay, hdiv, hmod]
  · intro h1 h2
    have hdiv : 0 < m / 60 := Nat.div_pos h1 (by norm_num)
    simp [timeDisplay, hdiv, h2]
  · intro h1 h2
    have hdiv : 0 < m / 60 := Nat.div_pos h1 (by norm_num)
    simp [timeDisplay, hdiv, h2, String.append_assoc]

theorem listTimeEntresTool_result_ok
    (args : ListTimeEntriesArgs) (u : Option String) (pid : Option String)
    (resp : ListResponse TimeEntryRecord)
    (hlim : zodLimitIssues args.limit = [])
    (hres : resolveOptPerson args.person_id u = .ok pid)
    (hne : resp.data ≠ []) :
    (listTimeEntresTool args u resp).result = .ok (listSummary resp) := by
  unfold listTimeEntresTool listTimeEntriesSchemaParse
  simp only [hlim, hres]
  rw [if_neg hne]

/-- Claim C9: On every non-empty page returned by `list_time_entries`, each
entry's minute count is rendered by the `<H>h <M>m` rule — hours only when
positive, minutes only when positive, `0m` when both would be empty — and
the output contains an aggregate `Total Time` equal to the sum of the time
fields of all entries on the page, rendered by the same rule. -/
theorem c9_list_rendering
    (args : ListTimeEntriesArgs) (u : Option String) (pid : Option String)
    (resp : ListResponse TimeEntryRecord)
    (hlim : zodLimitIssues args.limit = [])
    (hres : resolveOptPerson args.person_id u = .ok pid)
    (hne : resp.data ≠ []) :
    (∀ m : Nat,
      (m = 0 → timeDisplay m = "0m") ∧
      (0 < m → m < 60 → timeDisplay m = toString m ++ "m") ∧
      (60 ≤ m → m % 60 = 0 → timeDisplay m = toString (m / 60) ++ "h") ∧
      (60 ≤ m → 0 < m % 60 →
        timeDisplay m = toString (m / 60) ++ "h " ++ toString (m % 60) ++ "m")) ∧
    ∃ text, (listTimeEntresTool args u resp).result = .ok text ∧
      (∀ e ∈ resp.data, containsStr text ("Time: " ++ timeDisplay e.time)) ∧
      containsStr text ("Total Time: " ++
        timeDisplay ((resp.data.map (fun e => e.time)).sum)) ∧
      pageTotalMinutes resp.data = (resp.data.map (fun e => e.time)).sum := by
  refine ⟨timeDisplay_rule, listSummary resp,
    listTimeEntresTool_result_ok args u pid resp hlim hres hne, ?_, ?_,
    pageTotalMinutes_eq_sum resp.data⟩
  · intro e he
    have hline : containsStr (entryLine e) ("Time: " ++ timeDisplay e.time) := by
      simp only [entryLine]
      repeat (first
        | exact containsStr_append_left _ (containsStr_refl _)
        | apply containsStr_append_right)
    have hjoin : containsStr (joinSep "\n\n" (resp.data.map entryLine))
        (entryLine e) :=
      containsStr_joinSep (List.mem_map_of_mem entryLine he)
    have : containsStr (listSummary resp) (joinSep "\n\n" (resp.data.map entryLine)) := by
      simp only [listSummary]
      exact containsStr_append_left _ (containsStr_refl _)
    exact containsStr_trans (containsStr_trans this hjoin) hline
  · rw [← pageTotalMinutes_eq_sum]
    simp only [listSummary]
    repeat (first
      | exact containsStr_append_left _ (containsStr_refl _)
      | apply containsStr_append_right)

/-- Witness for C9: a page with entries of 125 and 30 minutes yields a
summary whose total line renders 155 minutes as `2h 35m`. -/
theorem c9_witness :
    ∃ text, (listTimeEntresTool ⟨none, none, none, none, none, none, none, none⟩
      none ⟨[⟨"T1", "2024-01-15", 125, none, none, none, none, none, none⟩,
             ⟨"T2", "2024-01-15", 30, none, none, none, none, none, none⟩],
        none⟩).result = .ok text ∧
      containsStr text ("Total Time: " ++ timeDisplay 155) :=
  let h := c9_list_rendering ⟨none, none, none, none, none, none, none, none⟩
    none none
    ⟨[⟨"T1", "2024-01-15", 125, none, none, none, none, none, none⟩,
      ⟨"T2", "2024-01-15", 30, none, none, none, none, none, none⟩], none⟩
    rfl rfl (by decide)
  ⟨h.2.choose, h.2.choose_spec.1, h.2.choose_spec.2.2.1⟩

/-! ## Duration-parser lemmas -/

theorem ws_not_digit {c : Char} (h : c.isWhitespace = true) : c.isDigit = false := by
  cases hB : c.isDigit
  · rfl
  · exact absurd h (by simp [digit_not_ws hB])

theorem ws_ne_dot {c : Char} (h : c.isWhitespace = true) : c ≠ '.' := by
  rintro rfl
  exact absurd h (by decide)

theorem hourUnits_head : ∀ u ∈ hourUnits, u.head? = some 'h' := by decide

theorem minuteUnits_head : ∀ u ∈ minuteUnits, u.head? = some 'm' := by decide

theorem hourUnits_any_self {u : List Char} (hu : u ∈ hourUnits) :
    (hourUnits.any fun v => u = v) = true := by
  rw [List.any_eq_true]
  exact ⟨u, hu, by simp⟩

theorem minuteUnits_any_self {u : List Char} (hu : u ∈ minuteUnits) :
    (minuteUnits.any fun v => u = v) = true := by
  rw [List.any_eq_true]
  exact ⟨u, hu, by simp⟩

theorem any_head_mismatch {r : List Char} {units : List (List Char)} {a : Char}
    (hr : r.head? = some a)
    (hu : ∀ u ∈ units, ∃ b, u.head? = some b ∧ b ≠ a) :
    (units.any fun v => r = v) = false := by
  rw [List.any_eq_false]
  intro v hv
  simp only [decide_eq_true_eq]
  intro heq
  obtain ⟨b, hb, hba⟩ := hu v hv
  rw [← heq, hr] at hb
  exact hba (by injection hb with h; exact h.symm)

/-- Head condition for the remainder after an integer numeral followed by
whitespace and a unit whose head is a letter. -/
theorem rest_head_cond {w u : List Char} {uh : Char}
    (hw : ∀ c ∈ w, c.isWhitespace = true) (hu : u.head? = some uh)
    (hd : uh.isDigit = false) (hdot : uh ≠ '.') :
    ∀ c, (w ++ u).head? = some c → c.isDigit = false ∧ c ≠ '.' := by
  intro c hc
  cases w with
  | nil =>
    simp only [List.nil_append] at hc
    rw [hu] at hc
    obtain rfl : uh = c := by injection hc
    exact ⟨hd, hdot⟩
  | cons c0 t =>
    simp only [List.cons_append, List.head?_cons] at hc
    injection hc with h
    subst h
    have hws := hw c0 (by simp)
    exact ⟨ws_not_digit hws, ws_ne_dot hws⟩

theorem parseNumberCore_int {ds rest : List Char}
    (hne : ds ≠ []) (hds : ∀ c ∈ ds, c.isDigit = true)
    (hr : ∀ c, rest.head? = some c → c.isDigit = false ∧ c ≠ '.') :
    parseNumberCore (ds ++ rest) = some (digitsToNat ds, 0, rest) := by
  obtain ⟨ht, hd⟩ := takeWhile_dropWhile_append hds (fun c hc => (hr c hc).1)
  simp only [parseNumberCore, ht, hd]
  split
  · rename_i r2
    exact absurd rfl (hr '.' rfl).2
  · simp [hne]

theorem parseNumberCore_dec {d1 d2 rest : List Char}
    (hd1 : ∀ c ∈ d1, c.isDigit = true) (h2ne : d2 ≠ [])
    (hd2 : ∀ c ∈ d2, c.isDigit = true)
    (hr : ∀ c, rest.head? = some c → c.isDigit = false) :
    parseNumberCore (d1 ++ '.' :: (d2 ++ rest)) =
      some (digitsToNat (d1 ++ d2), d2.length, rest) := by
  have hdot : ∀ c, ('.' :: (d2 ++ rest)).head? = some c → c.isDigit = false := by
    intro c hc
    injection hc with h
    subst h
    decide
  obtain ⟨ht, hd⟩ := takeWhile_dropWhile_append hd1 hdot
  obtain ⟨ht2, hd2'⟩ := takeWhile_dropWhile_append hd2 hr
  simp only [parseNumberCore, ht, hd]
  rw [ht2, hd2']
  simp [h2ne]

theorem parseNumberCore_inv {cs : List Char} {mant frac : Nat} {rest : List Char}
    (h : parseNumberCore cs = some (mant, frac, rest)) :
    ∃ num, cs = num ++ rest ∧ NumeralShape num mant frac := by
  have hsplit := List.takeWhile_append_dropWhile Char.isDigit cs
  have hdig1 : ∀ c ∈ cs.takeWhile Char.isDigit, c.isDigit = true :=
    fun c hc => List.mem_takeWhile_imp hc
  simp only [parseNumberCore] at h
  split at h
  · rename_i r2 heq
    have hsplit2 := List.takeWhile_append_dropWhile Char.isDigit r2
    have hdig2 : ∀ c ∈ r2.takeWhile Char.isDigit, c.isDigit = true :=
      fun c hc => List.mem_takeWhile_imp hc
    split at h
    · simp at h
    · rename_i h2ne
      simp only [Option.some.injEq, Prod.mk.injEq] at h
      obtain ⟨h1, h2, h3⟩ := h
      refine ⟨cs.takeWhile Char.isDigit ++ '.' :: r2.takeWhile Char.isDigit, ?_, ?_⟩
      · have hback : (cs.takeWhile Char.isDigit ++ '.' :: r2.takeWhile Char.isDigit)
            ++ rest = cs := by
          rw [← h3]
          simp only [List.append_assoc, List.cons_append]
          rw [hsplit2, ← heq, hsplit]
        exact hback.symm
      · exact Or.inr ⟨cs.takeWhile Char.isDigit, r2.takeWhile Char.isDigit, rfl,
          h2ne, hdig1, hdig2, h1.symm, h2.symm⟩
  · split at h
    · simp at h
    · rename_i h1ne
      simp only [Option.some.injEq, Prod.mk.injEq] at h
      obtain ⟨h1, h2, h3⟩ := h
      refine ⟨cs.takeWhile Char.isDigit, ?_, ?_⟩
      · have hback : cs.takeWhile Char.isDigit ++ rest = cs := by
          rw [← h3, hsplit]
        exact hback.symm
      · exact Or.inl ⟨h2.symm, h1ne, hdig1, h1.symm⟩

theorem head_not_ws_of_head? {u : List Char} {uh : Char}
    (hu : u.head? = some uh) (h : uh.isWhitespace = false) :
    ∀ c, u.head? = some c → c.isWhitespace = false := by
  intro c hc
  rw [hu] at hc
  injection hc with h'
  subst h'
  exact h

theorem hourUnits_cond {num w u : List Char} {mant frac : Nat}
    (hn : NumeralShape num mant frac) (hw : ∀ c ∈ w, c.isWhitespace = true)
    (hu : u ∈ hourUnits) :
    parseNumberCore (num ++ (w ++ u)) = some (mant, frac, w ++ u) := by
  have hcond : ∀ c, (w ++ u).head? = some c → c.isDigit = false ∧ c ≠ '.' :=
    rest_head_cond hw (hourUnits_head u hu) (by decide) (by decide)
  rcases hn with ⟨hfrac, hne, hds, hm⟩ | ⟨d1, d2, hnum, h2ne, hd1, hd2, hm, hfrac⟩
  · subst hfrac hm
    exact parseNumberCore_int hne hds hcond
  · subst hm hfrac hnum
    have := @parseNumberCore_dec d1 d2 (w ++ u) hd1 h2ne hd2
      (fun c hc => (hcond c hc).1)
    simpa [List.append_assoc] using this

theorem minuteUnits_cond {num w u : List Char} {mant frac : Nat}
    (hn : NumeralShape num mant frac) (hw : ∀ c ∈ w, c.isWhitespace = true)
    (hu : u ∈ minuteUnits) :
    parseNumberCore (num ++ (w ++ u)) = some (mant, frac, w ++ u) := by
  have hcond : ∀ c, (w ++ u).head? = some c → c.isDigit = false ∧ c ≠ '.' :=
    rest_head_cond hw (minuteUnits_head u hu) (by decide) (by decide)
  rcases hn with ⟨hfrac, hne, hds, hm⟩ | ⟨d1, d2, hnum, h2ne, hd1, hd2, hm, hfrac⟩
  · subst hfrac hm
    exact parseNumberCore_int hne hds hcond
  · subst hm hfrac hnum
    have := @parseNumberCore_dec d1 d2 (w ++ u) hd1 h2ne hd2
      (fun c hc => (hcond c hc).1)
    simpa [List.append_assoc] using this

theorem dropWhile_ws_unit {w u : List Char} {uh : Char}
    (hw : ∀ c ∈ w, c.isWhitespace = true) (hu : u.head? = some uh)
    (hnw : uh.isWhitespace = false) :
    (w ++ u).dropWhile Char.isWhitespace = u :=
  (takeWhile_dropWhile_append hw (head_not_ws_of_head? hu hnw)).2

theorem parseHourForm_spec {num w u : List Char} {mant frac : Nat}
    (hn : NumeralShape num mant frac) (hw : ∀ c ∈ w, c.isWhitespace = true)
    (hu : u ∈ hourUnits) :
    parseHourForm (num ++ (w ++ u)) = some (hoursToMinutes mant frac) := by
  have hdw := dropWhile_ws_unit hw (hourUnits_head u hu) (by decide)
  simp only [parseHourForm, hourUnits_cond hn hw hu, hdw, hourUnits_any_self hu,
    if_true]

theorem parseHourForm_none_minute {ds w u : List Char}
    (hne : ds ≠ []) (hds : ∀ c ∈ ds, c.isDigit = true)
    (hw : ∀ c ∈ w, c.isWhitespace = true) (hu : u ∈ minuteUnits) :
    parseHourForm (ds ++ (w ++ u)) = none := by
  have hn : NumeralShape ds (digitsToNat ds) 0 := Or.inl ⟨rfl, hne, hds, rfl⟩
  have hdw := dropWhile_ws_unit hw (minuteUnits_head u hu) (by decide)
  have hany : (hourUnits.any fun v => u = v) = false :=
    any_head_mismatch (minuteUnits_head u hu) (by decide)
  simp only [parseHourForm, minuteUnits_cond hn hw hu, hdw, hany]
  rfl

theorem parseMinuteForm_spec {ds w u : List Char}
    (hne : ds ≠ []) (hds : ∀ c ∈ ds, c.isDigit = true)
    (hw : ∀ c ∈ w, c.isWhitespace = true) (hu : u ∈ minuteUnits) :
    parseMinuteForm (ds ++ (w ++ u)) = some (digitsToNat ds) := by
  have hcond : ∀ c, (w ++ u).head? = some c → c.isDigit = false ∧ c ≠ '.' :=
    rest_head_cond hw (minuteUnits_head u hu) (by decide) (by decide)
  obtain ⟨ht, hd⟩ := takeWhile_dropWhile_append hds (fun c hc => (hcond c hc).1)
  have hdw := dropWhile_ws_unit hw (minuteUnits_head u hu) (by decide)
  have hl : ds ++ (w ++ u) = ds ++ (w ++ u) := rfl
  simp only [parseMinuteForm, ht, hd, hdw, minuteUnits_any_self hu, if_true]
  simp [hne]

theorem numeral_core_nil {cs : List Char} {mant frac : Nat}
    (hn : NumeralShape cs mant frac) :
    parseNumberCore cs = some (mant, frac, []) := by
  have hcond : ∀ c, ([] : List Char).head? = some c → c.isDigit = false ∧ c ≠ '.' := by
    intro c hc
    cases hc
  rcases hn with ⟨hfrac, hne, hds, hm⟩ | ⟨d1, d2, hnum, h2ne, hd1, hd2, hm, hfrac⟩
  · subst hfrac hm
    have := parseNumberCore_int hne hds hcond
    simpa using this
  · subst hm hfrac hnum
    have := @parseNumberCore_dec d1 d2 [] hd1 h2ne hd2
      (fun c hc => (hcond c hc).1)
    simpa using this

theorem parseHourForm_none_bare {cs : List Char} {mant frac : Nat}
    (hn : NumeralShape cs mant frac) : parseHourForm cs = none := by
  have hany : (hourUnits.any fun v => ([] : List Char) = v) = false := by decide
  simp only [parseHourForm, numeral_core_nil hn, List.dropWhile_nil, hany]
  rfl

theorem parseMinuteForm_none_bare {cs : List Char} {mant frac : Nat}
    (hn : NumeralShape cs mant frac) : parseMinuteForm cs = none := by
  rcases hn with ⟨hfrac, hne, hds, hm⟩ | ⟨d1, d2, hnum, h2ne, hd1, hd2, hm, hfrac⟩
  · have hcond : ∀ c, ([] : List Char).head? = some c → c.isDigit = false := by
      intro c hc
      cases hc
    obtain ⟨ht, hd⟩ := takeWhile_dropWhile_append hds hcond
    simp only [List.append_nil] at ht hd
    have hany : (minuteUnits.any fun v => ([] : List Char) = v) = false := by decide
    simp only [parseMinuteForm, ht, hd, List.dropWhile_nil, hany]
    simp [hne]
  · subst hnum
    have hdot : ∀ c, ('.' :: d2).head? = some c → c.isDigit = false := by
      intro c hc
      injection hc with h
      subst h
      decide
    obtain ⟨ht, hd⟩ := takeWhile_dropWhile_append hd1 hdot
    have hr : ('.' :: d2).dropWhile Char.isWhitespace = '.' :: d2 :=
      dropWhile_head_false (by
        intro c hc
        injection hc with h
        subst h
        decide)
    have hany : (minuteUnits.any fun v => ('.' :: d2) = v) = false :=
      any_head_mismatch rfl (by decide)
    by_cases h1 : d1 = []
    · subst h1
      simp only [parseMinuteForm, ht, hd]
      simp
    · simp only [parseMinuteForm, ht, hd, hr, hany]
      simp [h1]

theorem parseDecimalForm_spec {cs : List Char} {mant frac : Nat}
    (hn : NumeralShape cs mant frac) :
    parseDecimalForm cs = some (hoursToMinutes mant frac) := by
  simp [parseDecimalForm, numeral_core_nil hn]

theorem parseHourForm_inv {cs : List Char} {m : Nat}
    (h : parseHourForm cs = some m) :
    ∃ num w u mant frac, cs = num ++ w ++ u ∧ NumeralShape num mant frac ∧
      (∀ c ∈ w, c.isWhitespace = true) ∧ u ∈ hourUnits ∧
      m = hoursToMinutes mant frac := by
  simp only [parseHourForm] at h
  split at h
  · rename_i mant frac rest heq
    split at h
    · rename_i hany
      injection h with h'
      rw [List.any_eq_true] at hany
      obtain ⟨u, hu, hru⟩ := hany
      rw [decide_eq_true_eq] at hru
      obtain ⟨num, hcs, hnum⟩ := parseNumberCore_inv heq
      have hws := List.takeWhile_append_dropWhile Char.isWhitespace rest
      refine ⟨num, rest.takeWhile Char.isWhitespace, u, mant, frac, ?_, hnum, ?_,
        hu, h'.symm⟩
      · rw [hcs, ← hru, List.append_assoc, hws]
      · exact fun c hc => List.mem_takeWhile_imp hc
    · simp at h
  · simp at h

theorem parseMinuteForm_inv {cs : List Char} {m : Nat}
    (h : parseMinuteForm cs = some m) :
    ∃ ds w u, cs = ds ++ w ++ u ∧ ds ≠ [] ∧ (∀ c ∈ ds, c.isDigit = true) ∧
      (∀ c ∈ w, c.isWhitespace = true) ∧ u ∈ minuteUnits ∧
      m = digitsToNat ds := by
  simp only [parseMinuteForm] at h
  split at h
  · simp at h
  · rename_i h1ne
    split at h
    · rename_i hany
      injection h with h'
      rw [List.any_eq_true] at hany
      obtain ⟨u, hu, hru⟩ := hany
      rw [decide_eq_true_eq] at hru
      have hdig := List.takeWhile_append_dropWhile Char.isDigit cs
      have hws := List.takeWhile_append_dropWhile Char.isWhitespace
        (cs.dropWhile Char.isDigit)
      refine ⟨cs.takeWhile Char.isDigit,
        (cs.dropWhile Char.isDigit).takeWhile Char.isWhitespace, u, ?_, h1ne,
        fun c hc => List.mem_takeWhile_imp hc,
        fun c hc => List.mem_takeWhile_imp hc, hu, h'.symm⟩
      rw [← hru, List.append_assoc, hws, hdig]
    · simp at h

theorem parseDecimalForm_inv {cs : List Char} {m : Nat}
    (h : parseDecimalForm cs = some m) :
    ∃ mant frac, NumeralShape cs mant frac ∧ m = hoursToMinutes mant frac := by
  simp only [parseDecimalForm] at h
  split at h
  · rename_i mant frac rest heq
    split at h
    · rename_i hrest
      injection h with h'
      subst hrest
      obtain ⟨num, hcs, hnum⟩ := parseNumberCore_inv heq
      rw [List.append_nil] at hcs
      subst hcs
      exact ⟨mant, frac, hnum, h'.symm⟩
    · simp at h
  · simp at h

theorem parseTimeCore_of_spec {cs : List Char} {m : Nat}
    (h : DurationFormSpec cs m) : parseTimeCore cs = some m := by
  rcases h with ⟨num, w, u, mant, frac, hcs, hn, hw, hu, hm⟩ |
    ⟨ds, w, u, hcs, hne, hds, hw, hu, hm⟩ | ⟨mant, frac, hn, hm⟩
  · subst hm
    rw [hcs, List.append_assoc]
    simp only [parseTimeCore, parseHourForm_spec hn hw hu]
  · subst hm
    rw [hcs, List.append_assoc]
    simp only [parseTimeCore, parseHourForm_none_minute hne hds hw hu,
      parseMinuteForm_spec hne hds hw hu]
  · subst hm
    simp only [parseTimeCore, parseHourForm_none_bare hn,
      parseMinuteForm_none_bare hn, parseDecimalForm_spec hn]

theorem parseTimeCore_inv {cs : List Char} {m : Nat}
    (h : parseTimeCore cs = some m) : DurationFormSpec cs m := by
  simp only [parseTimeCore] at h
  split at h
  · rename_i n hh
    injection h with h'
    subst h'
    obtain ⟨num, w, u, mant, frac, hcs, hn, hw, hu, hm⟩ := parseHourForm_inv hh
    exact Or.inl ⟨num, w, u, mant, frac, hcs, hn, hw, hu, hm⟩
  · split at h
    · rename_i n hh
      injection h with h'
      subst h'
      obtain ⟨ds, w, u, hcs, hne, hds, hw, hu, hm⟩ := parseMinuteForm_inv hh
      exact Or.inr (Or.inl ⟨ds, w, u, hcs, hne, hds, hw, hu, hm⟩)
    · obtain ⟨mant, frac, hn, hm⟩ := parseDecimalForm_inv h
      exact Or.inr (Or.inr ⟨mant, frac, hn, hm⟩)

theorem roundHalfUp_eq_round (num den : Nat) (h : 0 < den) :
    (roundHalfUp num den : ℤ) = round ((num : ℚ) / (den : ℚ)) := by
  have hden : (den : ℚ) ≠ 0 := Nat.cast_ne_zero.mpr h.ne'
  rw [round_eq, roundHalfUp]
  have heq : (num : ℚ) / (den : ℚ) + 1 / 2 =
      ((2 * num + den : ℕ) : ℚ) / ((2 * den : ℕ) : ℚ) := by
    push_cast
    field_simp
    ring
  rw [heq, Rat.floor_natCast_div_natCast]
  exact Int.natCast_div _ _

/-- Structural duration contract over the idealized (exact-rational)
arithmetic: on the lower-cased, trimmed input, whenever the input matches
one of the three recognized forms (`number` + `h`/`hour`/`hours` ↦
round(number·60); integer + `m`/`minute`/`minutes` ↦ the integer; bare
`number` ↦ round(number·60)) the parser returns exactly that value, and
conversely every success arises from one of the three forms; any other
input fails with an error naming the offending input; the idealized
rounding is round-half-up on the exact rational; results are non-negative
and zero is accepted.  This characterizes the regex/branch structure only:
the source evaluates the arithmetic in IEEE binary64, which deviates from
this idealization (see the duration-divergence theorem). -/
theorem parseTime_idealized_contract (s : String) :
    (∀ m, DurationFormSpec (normalizeInput s) m → parseTimeToMinutes s = .ok m) ∧
    (∀ m, parseTimeToMinutes s = .ok m → DurationFormSpec (normalizeInput s) m) ∧
    (∀ m, parseTimeToMinutes s = .ok m → 0 ≤ m) ∧
    ((∀ m, ¬ DurationFormSpec (normalizeInput s) m) →
      parseTimeToMinutes s = .error ("Invalid time format: " ++ s ++
        ". Use formats like \"2h\", \"120m\", or \"2.5\"")) ∧
    (∀ num den, 0 < den →
      (roundHalfUp num den : ℤ) = round ((num : ℚ) / (den : ℚ))) ∧
    hoursToMinutes 2 0 = 120 ∧ hoursToMinutes 25 1 = 150 ∧
    parseTimeToMinutes "0h" = .ok 0 ∧ parseTimeToMinutes "0" = .ok 0 ∧
    parseTimeToMinutes "0m" = .ok 0 := by
  refine ⟨?_, ?_, ?_, ?_, fun num den h => roundHalfUp_eq_round num den h,
    rfl, rfl, rfl, rfl, rfl⟩
  · intro m hm
    unfold parseTimeToMinutes
    rw [parseTimeCore_of_spec hm]
  · intro m hm
    unfold parseTimeToMinutes at hm
    cases hcore : parseTimeCore (normalizeInput s) with
    | some n =>
      rw [hcore] at hm
      injection hm with h'
      subst h'
      exact parseTimeCore_inv hcore
    | none =>
      rw [hcore] at hm
      exact absurd hm (by simp)
  · intro m _
    exact Nat.zero_le m
  · intro hnone
    unfold parseTimeToMinutes
    cases hcore : parseTimeCore (normalizeInput s) with
    | some n => exact absurd (parseTimeCore_inv hcore) (hnone n)
    | none => rfl

set_option maxRecDepth 10000 in
/-- Claim C4, code bug: the claim (and spec §4.1) mandate
round-half-away-from-zero on the exact minute value and that an integer
with an `m` unit is returned unchanged; the source instead evaluates
`Math.round(parseFloat(x) * 60)` and `parseInt(x)` in IEEE binary64.
At the failing input `1.025h` the exact minute value is `61.5`, so the
claimed contract demands `62` (`hoursToMinutes 1025 3 = 62`, which is what
the idealized parser model returns), but the faithful double evaluation
gives `parseFloat("1.025") = 1.02499999999999991…`, product
`61.49999999999999289`, `Math.round` = `61`.  Likewise `parseInt` cannot
return `9007199254740993` (above `2^53`) unchanged: its nearest double is
`9007199254740992`.  On unaffected inputs such as `2h` and `2.5h` the two
arithmetics agree. -/
theorem c4_float_divergence :
    parseTimeToMinutes "1.025h" = .ok (hoursToMinutes 1025 3) ∧
    hoursToMinutes 1025 3 = 62 ∧
    fpDurationValue 1025 3 = 61 ∧
    parseTimeToMinutes "9007199254740993m" = .ok 9007199254740993 ∧
    fpRoundInt 9007199254740993 = 9007199254740992 ∧
    fpDurationValue 2 0 = 120 ∧ fpDurationValue 25 1 = 150 :=
  ⟨rfl, rfl, by decide, rfl, by decide, by decide, by decide⟩

end ProductiveMcp
